import Mathlib

/-!
# sesasi-api: permission lifecycle and account directory

A shallow embedding of the decision logic of `internal/service`,
`internal/repository` and `internal/controller`, with the relational store
as an explicit value that every operation takes and returns.

Conventions of the embedding

* A table is the list of its rows.  A `Where("id = ?", id)` statement acts on
  every row whose key column equals `id`; `First` returns the first such row.
* The collaborators the services are wired with (database driver, clock,
  uuid generator, the helper package) are the fields of `Env`.  A statement
  either runs or returns the driver's error without touching the store.
* `time.Time` is an integer instant; `0` stands for Go's zero `time.Time`.
* Go `int` and `int64` are 64 bit two's complement: arithmetic is done in
  `Int` and wrapped with `wrapInt64`.
-/

namespace Sesasi

/-! ## Entities -/

/-- Instants of `time.Time`; `0` is the zero value. -/
abbrev Time := Int

namespace entity

def ADMIN : String := "admin"
def VERIFIER : String := "verifier"
def USER : String := "user"

def StatusPending : String := "pending"
def StatusApproved : String := "approved"
def StatusRejected : String := "rejected"
def StatusRevised : String := "revised"
def StatusCancelled : String := "cancelled"

/-- Columns of `entity.Account`.  The has-many association `Permissions` is
not a column; queries that preload it return it next to the row. -/
structure Account where
  ID : String
  Name : String
  Email : String
  Password : String
  Role : String
  Verified : Bool
  CreatedAt : Time
  deriving DecidableEq, Repr

/-- Go zero value of `entity.Account`. -/
def Account.zero : Account :=
  { ID := "", Name := "", Email := "", Password := "", Role := "",
    Verified := false, CreatedAt := 0 }

/-- Columns of `entity.Permission` together with the belongs-to association
`Account`, which only `Preload("Account")` fills in. -/
structure Permission where
  Id : String
  Title : String
  Reason : String
  StartDate : Time
  EndDate : Time
  Comment : String
  Status : String
  CreatedAt : Time
  UpdatedAt : Time
  AccountID : String
  Account : Account
  deriving DecidableEq, Repr

/-- Go zero value of `entity.Permission`. -/
def Permission.zero : Permission :=
  { Id := "", Title := "", Reason := "", StartDate := 0, EndDate := 0,
    Comment := "", Status := "", CreatedAt := 0, UpdatedAt := 0,
    AccountID := "", Account := Account.zero }

end entity

open entity

/-! ## Errors and collaborators -/

/-- Errors a service hands back: a `fiber.NewError(code, message)`, or the
error of the persistence layer passed through as it came. -/
inductive Error where
  | fiber (code : Nat) (message : String)
  | raw (text : String)
  | panic (text : String)
  deriving DecidableEq, Repr

/-- One entry of `validator.ValidationErrors`: the struct field and the tag
that rejected it. -/
structure FieldError where
  field : String
  tag : String
  deriving DecidableEq, Repr

/-- What the services are wired with and do not implement themselves. -/
structure Env where
  /-- error the driver answers a query with, if any -/
  readErr : Option String
  /-- error the driver answers an insert, update or delete with, if any -/
  writeErr : Option String
  /-- value of `uuid_generate_v4()` for the next inserted row -/
  newId : String
  /-- the clock behind `autoCreateTime` and `autoUpdateTime` -/
  now : Time
  /-- `helper.HashPassword` -/
  HashPassword : String → Except String String
  /-- `helper.ComparePassword hash plain`, true when they match -/
  ComparePassword : String → String → Bool
  /-- `helper.GenerateValidationErrors` -/
  GenerateValidationErrors : List FieldError → String

/-- The record store: one list of rows per table. -/
structure DB where
  accounts : List Account
  permissions : List Permission
  deriving DecidableEq, Repr

/-! ## Request payloads and their validation tags -/

namespace dto

structure ApprovalRequest where
  Comment : String
  deriving DecidableEq, Repr

structure CreatePermissionRequest where
  Title : String
  Reason : String
  StartDate : Time
  EndDate : Time
  deriving DecidableEq, Repr

structure RegisterRequest where
  Name : String
  Email : String
  Password : String
  deriving DecidableEq, Repr

structure AccountResponse where
  ID : String
  Name : String
  Email : String
  Role : String
  Verified : Bool
  CreatedAt : Option Time
  deriving DecidableEq, Repr

/-- Fields of `dto.PageMetadata` as the services fill them. -/
structure PageMetadata where
  Page : Int
  Size : Int
  TotalItem : Int
  TotalPage : Int
  HasNext : Bool
  HasPrevious : Bool
  deriving DecidableEq, Repr

end dto

open dto

/-- The tag `required` on a string field: the value is not the zero value. -/
def requiredString (field : String) (v : String) : List FieldError :=
  if v = "" then [⟨field, "required"⟩] else []

/-- The tag `required` on a `time.Time` field. -/
def requiredTime (field : String) (v : Time) : List FieldError :=
  if v = 0 then [⟨field, "required"⟩] else []

/-- The tags `required,min=3,max=32` on a string field; lengths are counted
in runes, and the first failing tag is the one reported. -/
def requiredMinMax (field : String) (v : String) (lo hi : Nat) : List FieldError :=
  if v = "" then [⟨field, "required"⟩]
  else if v.length < lo then [⟨field, "min"⟩]
  else if hi < v.length then [⟨field, "max"⟩]
  else []

namespace Validate

/-- `Validate.Struct` on a `dto.ApprovalRequest`; `[]` is a nil error. -/
def StructApprovalRequest (p : ApprovalRequest) : List FieldError :=
  requiredString "Comment" p.Comment

/-- `Validate.Struct` on a `dto.CreatePermissionRequest`. -/
def StructCreatePermissionRequest (p : CreatePermissionRequest) : List FieldError :=
  requiredString "Title" p.Title ++ requiredString "Reason" p.Reason ++
    requiredTime "StartDate" p.StartDate ++ requiredTime "EndDate" p.EndDate

/-- `Validate.Struct` on a `dto.RegisterRequest`. -/
def StructRegisterRequest (p : RegisterRequest) : List FieldError :=
  requiredMinMax "Name" p.Name 3 32 ++ requiredString "Email" p.Email ++
    requiredString "Password" p.Password

end Validate

/-! ## `repository.PermissionRepositoryImpl` -/

namespace PermissionRepositoryImpl

/-- `Preload("Account")`: the account the foreign key points to, or the zero
account when there is none. -/
def preloadAccount (db : DB) (p : Permission) : Permission :=
  { p with Account := (db.accounts.find? (fun a => decide (a.ID = p.AccountID))).getD Account.zero }

/-- `Preload("Account").First(&permission, "id = ?", id)`. -/
def FindByID (env : Env) (db : DB) (id : String) : Except String Permission :=
  match env.readErr with
  | some e => .error e
  | none =>
    match db.permissions.find? (fun p => decide (p.Id = id)) with
    | none => .error "record not found"
    | some p => .ok (preloadAccount db p)

/-- `Model(&entity.Permission{}).Where("id = ?", id).Updates(map[string]any{"status": status, "comment": comment})`:
a map writes every key it holds, and the update stamps `updated_at`. -/
def UpdatePermissionStatus (env : Env) (db : DB) (id status comment : String) :
    Except String Unit × DB :=
  match env.writeErr with
  | some e => (.error e, db)
  | none =>
    (.ok (), { db with permissions := db.permissions.map (fun p =>
      if p.Id = id then { p with Status := status, Comment := comment, UpdatedAt := env.now }
      else p) })

/-- `Updates` with a struct argument: only the non-zero fields of `e` are
written, and `updated_at` is stamped with the clock. -/
def updatesStruct (now : Time) (e row : Permission) : Permission :=
  { Id := if e.Id = "" then row.Id else e.Id
    Title := if e.Title = "" then row.Title else e.Title
    Reason := if e.Reason = "" then row.Reason else e.Reason
    StartDate := if e.StartDate = 0 then row.StartDate else e.StartDate
    EndDate := if e.EndDate = 0 then row.EndDate else e.EndDate
    Comment := if e.Comment = "" then row.Comment else e.Comment
    Status := if e.Status = "" then row.Status else e.Status
    CreatedAt := if e.CreatedAt = 0 then row.CreatedAt else e.CreatedAt
    UpdatedAt := now
    AccountID := if e.AccountID = "" then row.AccountID else e.AccountID
    Account := row.Account }

/-- `Model(&entity.Permission{}).Where("id = ?", id).Updates(e)`. -/
def Update (env : Env) (db : DB) (id : String) (e : Permission) : Except String Unit × DB :=
  match env.writeErr with
  | some err => (.error err, db)
  | none =>
    (.ok (), { db with permissions := db.permissions.map (fun p =>
      if p.Id = id then updatesStruct env.now e p else p) })

/-- `Model(&entity.Permission{}).Where("id = ?", id).Updates(entity.Permission{Status: status, Comment: comment})`. -/
def UpdateStatus (env : Env) (db : DB) (id status comment : String) : Except String Unit × DB :=
  match env.writeErr with
  | some err => (.error err, db)
  | none =>
    (.ok (), { db with permissions := db.permissions.map (fun p =>
      if p.Id = id then
        updatesStruct env.now { Permission.zero with Status := status, Comment := comment } p
      else p) })

/-- `Delete(&entity.Permission{}, "id = ?", id)`: the entity has no
`DeletedAt` column, so the rows are removed. -/
def Delete (env : Env) (db : DB) (id : String) : Except String Unit × DB :=
  match env.writeErr with
  | some err => (.error err, db)
  | none => (.ok (), { db with permissions := db.permissions.filter (fun p => decide (p.Id ≠ id)) })

end PermissionRepositoryImpl

/-! ## `service.PermissionServiceImpl` -/

namespace PermissionServiceImpl

def ChangePermissionStatus (env : Env) (db : DB) (id status : String)
    (payload : ApprovalRequest) : Except Error Unit × DB :=
  match Validate.StructApprovalRequest payload with
  | e :: es => (.error (.fiber 400 (env.GenerateValidationErrors (e :: es))), db)
  | [] =>
    match PermissionRepositoryImpl.FindByID env db id with
    | .error _ => (.error (.fiber 404 "Permission not found"), db)
    | .ok _ =>
      match PermissionRepositoryImpl.UpdatePermissionStatus env db id status payload.Comment with
      | (.error _, db1) => (.error (.fiber 500 "Failed to update permission status"), db1)
      | (.ok _, db1) => (.ok (), db1)

def UpdatePermission (env : Env) (db : DB) (userID id : String)
    (payload : CreatePermissionRequest) : Except Error Unit × DB :=
  match Validate.StructCreatePermissionRequest payload with
  | e :: es => (.error (.fiber 400 (env.GenerateValidationErrors (e :: es))), db)
  | [] =>
    match PermissionRepositoryImpl.FindByID env db id with
    | .error _ => (.error (.fiber 404 "Permission not found"), db)
    | .ok perm =>
      if perm.AccountID ≠ userID then
        (.error (.fiber 403 "You can only update your own permission"), db)
      else if perm.Status ≠ StatusPending ∧ perm.Status ≠ StatusRevised then
        (.error (.fiber 403 "Permission cannot be updated in current status"), db)
      else
        let updated : Permission :=
          { Permission.zero with
            Title := payload.Title, Reason := payload.Reason,
            StartDate := payload.StartDate, EndDate := payload.EndDate }
        match PermissionRepositoryImpl.Update env db id updated with
        | (.error err, db1) => (.error (.raw err), db1)
        | (.ok _, db1) => (.ok (), db1)

def CancelPermission (env : Env) (db : DB) (userID id : String) : Except Error Unit × DB :=
  match PermissionRepositoryImpl.FindByID env db id with
  | .error _ => (.error (.fiber 404 "Permission not found"), db)
  | .ok perm =>
    if perm.AccountID ≠ userID then
      (.error (.fiber 403 "You can only cancel your own permission"), db)
    else if perm.Status ≠ StatusPending ∧ perm.Status ≠ StatusRevised then
      (.error (.fiber 403 "Permission can`t be cancelled"), db)
    else
      match PermissionRepositoryImpl.UpdateStatus env db id StatusCancelled "Cancelled by user" with
      | (.error err, db1) => (.error (.raw err), db1)
      | (.ok _, db1) => (.ok (), db1)

def DeletePermission (env : Env) (db : DB) (userID id : String) : Except Error Unit × DB :=
  match PermissionRepositoryImpl.FindByID env db id with
  | .error _ => (.error (.fiber 404 "Permission not found"), db)
  | .ok perm =>
    if perm.AccountID ≠ userID then
      (.error (.fiber 403 "You can only delete your own permission"), db)
    else if perm.Status ≠ StatusPending then
      (.error (.fiber 403 "Only pending permission can be deleted"), db)
    else
      match PermissionRepositoryImpl.Delete env db id with
      | (.error err, db1) => (.error (.raw err), db1)
      | (.ok _, db1) => (.ok (), db1)

end PermissionServiceImpl

/-! ## Machine integers and `strconv.Atoi` -/

def maxInt64 : Int := 9223372036854775807

def minInt64 : Int := -9223372036854775808

/-- The value a 64 bit signed register holds after computing `x`. -/
def wrapInt64 (x : Int) : Int :=
  (x + 9223372036854775808) % 18446744073709551616 - 9223372036854775808

namespace strconv

/-- Value of a run of ASCII digits read onto `acc`; `none` at the first
character that is not a digit. -/
def digitsFrom : Nat → List Char → Option Nat
  | acc, [] => some acc
  | acc, c :: cs => if c.isDigit then digitsFrom (acc * 10 + (c.toNat - 48)) cs else none

/-- A non-empty run of ASCII digits. -/
def digits : List Char → Option Nat
  | [] => none
  | c :: cs => digitsFrom 0 (c :: cs)

/-- The integer a string denotes in base 10: an optional sign, then at least
one digit and nothing else.  No bound on the size. -/
def decimal (s : String) : Option Int :=
  match s.toList with
  | [] => none
  | c :: cs =>
    if c = '-' then (digits cs).map (fun n => -(n : Int))
    else if c = '+' then (digits cs).map (fun n => (n : Int))
    else (digits (c :: cs)).map (fun n => (n : Int))

/-- Go's `strconv.Atoi` on a 64 bit platform: a syntax error when the string is
not a base 10 integer, a range error when it does not fit an `int`. -/
def Atoi (s : String) : Except String Int :=
  match decimal s with
  | none => .error "invalid syntax"
  | some v => if minInt64 ≤ v ∧ v ≤ maxInt64 then .ok v else .error "value out of range"

end strconv

/-! ## List queries of the repositories -/

/-- SQL `LIKE` without an escape character: `%` stands for any run of
characters and `_` for any one character. -/
def likeMatch : List Char → List Char → Bool
  | [], s => s.isEmpty
  | p :: ps, s =>
    if p = '%' then (List.range (s.length + 1)).any (fun k => likeMatch ps (s.drop k))
    else
      match s with
      | [] => false
      | c :: cs => (p = '_' || p = c) && likeMatch ps cs

/-- `Limit(size).Offset(offset)`: a negative limit and a non-positive offset
add no clause. -/
def limitOffset {α : Type} (size offset : Int) (rows : List α) : List α :=
  let skipped := if 0 < offset then rows.drop offset.toNat else rows
  if 0 ≤ size then skipped.take size.toNat else skipped

namespace PermissionRepositoryImpl

/-- The repository's `FindAllPermissions`: optional filter on the lower-cased
status, count, order by creation time, one page, accounts preloaded.
`LOWER` and `strings.ToLower` act on ASCII letters here. -/
def FindAllPermissions (env : Env) (db : DB) (size offset : Int) (status : Option String)
    (order : String) : Except String (List Permission × Int) :=
  match env.readErr with
  | some e => .error e
  | none =>
    let rows : List Permission :=
      match status with
      | some s =>
        if s ≠ "" then db.permissions.filter (fun p => decide (p.Status.toLower = s.toLower))
        else db.permissions
      | none => db.permissions
    let total : Int := rows.length
    let sorted :=
      if order.toLower = "asc" then rows.insertionSort (fun a b => a.CreatedAt ≤ b.CreatedAt)
      else rows.insertionSort (fun a b => b.CreatedAt ≤ a.CreatedAt)
    .ok ((limitOffset size offset sorted).map (preloadAccount db), total)

/-- `Create(p)` followed by `Preload("Account").First(p, "id = ?", p.Id)`:
zero columns with a default get it (`uuid_generate_v4()`, `'pending'`, the
clock), and the primary key must be new. -/
def Create (env : Env) (db : DB) (p : Permission) : Except String Permission × DB :=
  match env.writeErr with
  | some e => (.error e, db)
  | none =>
    let row : Permission :=
      { p with
        Id := if p.Id = "" then env.newId else p.Id
        Status := if p.Status = "" then "pending" else p.Status
        CreatedAt := if p.CreatedAt = 0 then env.now else p.CreatedAt
        UpdatedAt := if p.UpdatedAt = 0 then env.now else p.UpdatedAt
        Account := Account.zero }
    if db.permissions.any (fun q => decide (q.Id = row.Id)) then
      (.error "duplicate key value violates unique constraint", db)
    else
      let db1 : DB := { db with permissions := db.permissions ++ [row] }
      match FindByID env db1 row.Id with
      | .error e => (.error e, db1)
      | .ok q => (.ok q, db1)

end PermissionRepositoryImpl

namespace AuthRepositoryImpl

/-- `Create(a)`: zero columns with a default get it (`uuid_generate_v4()`,
`'user'`, `false`, the clock); the primary key and the unique index on
`email` must not be violated. -/
def CreateAccount (env : Env) (db : DB) (a : Account) : Except String Account × DB :=
  match env.writeErr with
  | some e => (.error e, db)
  | none =>
    let row : Account :=
      { a with
        ID := if a.ID = "" then env.newId else a.ID
        Role := if a.Role = "" then "user" else a.Role
        CreatedAt := if a.CreatedAt = 0 then env.now else a.CreatedAt }
    if db.accounts.any (fun b => decide (b.ID = row.ID) || decide (b.Email = row.Email)) then
      (.error "duplicate key value violates unique constraint", db)
    else (.ok row, { db with accounts := db.accounts ++ [row] })

/-- The repository's `CheckEmailIfExist`: `(false, nil)` when no row
matches, `(false, err)` on any other error, `(true, nil)` otherwise. -/
def CheckEmailIfExist (env : Env) (db : DB) (email : String) : Bool × Option String :=
  match env.readErr with
  | some e => (false, some e)
  | none =>
    match db.accounts.find? (fun a => decide (a.Email = email)) with
    | none => (false, none)
    | some _ => (true, none)

/-- The repository's `GetAccounts`: role filter, optional name search and
verified filter, count, order by creation time, one page, with the
permissions of each account preloaded next to it. -/
def GetAccounts (env : Env) (db : DB) (size offset : Int) (search order : String)
    (role : List String) (verified : Option Bool) :
    Except String (List (Account × List Permission) × Int) :=
  match env.readErr with
  | some e => .error e
  | none =>
    let q1 := db.accounts.filter (fun a => decide (a.Role ∈ role))
    let q2 : List Account :=
      if search ≠ "" then
        q1.filter (fun a => likeMatch ("%" ++ search.toLower ++ "%").toList a.Name.toLower.toList)
      else q1
    let q3 : List Account :=
      match verified with
      | some v => q2.filter (fun a => decide (a.Verified = v))
      | none => q2
    let total : Int := q3.length
    let sorted :=
      if order.toLower = "asc" then q3.insertionSort (fun a b => a.CreatedAt ≤ b.CreatedAt)
      else q3.insertionSort (fun a b => b.CreatedAt ≤ a.CreatedAt)
    .ok ((limitOffset size offset sorted).map (fun a =>
      (a, db.permissions.filter (fun p => decide (p.AccountID = a.ID)))), total)

end AuthRepositoryImpl

/-! ## Responses -/

namespace dto

/-- Fields of `dto.PermissionResponse`; `Account` is a pointer there. -/
structure PermissionResponse where
  ID : String
  Title : String
  Reason : String
  StartDate : Time
  EndDate : Time
  Comment : String
  Status : String
  CreatedAt : Time
  UpdatedAt : Time
  Account : Option AccountResponse
  deriving DecidableEq, Repr

def ToPermissionResponse (p : Permission) : PermissionResponse :=
  { ID := p.Id, Title := p.Title, Reason := p.Reason, StartDate := p.StartDate,
    EndDate := p.EndDate, Comment := p.Comment, Status := p.Status,
    CreatedAt := p.CreatedAt, UpdatedAt := p.UpdatedAt,
    Account := some { ID := p.Account.ID, Name := p.Account.Name, Email := p.Account.Email,
                      Role := "", Verified := p.Account.Verified, CreatedAt := none } }

end dto

/-! ## List operations of the services -/

namespace PermissionServiceImpl

def GetAllPermissionRequests (env : Env) (db : DB) (page size : Int) (status : Option String)
    (order : String) : Except Error (List PermissionResponse × PageMetadata) :=
  let offset := wrapInt64 (wrapInt64 (page - 1) * size)
  match PermissionRepositoryImpl.FindAllPermissions env db size offset status order with
  | .error _ => .error (.fiber 500 "Failed to get permission requests")
  | .ok (permissions, total) =>
    let responses : List PermissionResponse := permissions.map (fun p =>
      { ID := p.Id, Title := p.Title, Reason := p.Reason, StartDate := p.StartDate,
        EndDate := p.EndDate, Comment := p.Comment, Status := p.Status,
        CreatedAt := p.CreatedAt, UpdatedAt := p.UpdatedAt,
        Account := some { ID := "", Name := p.Account.Name, Email := p.Account.Email,
                          Role := p.Account.Role, Verified := false, CreatedAt := none } })
    if size = 0 then .error (.panic "runtime error: integer divide by zero")
    else
      let totalPages := wrapInt64 (Int.tdiv (wrapInt64 (wrapInt64 (total + size) - 1)) size)
      .ok (responses,
        { Page := page, Size := size, TotalItem := total, TotalPage := totalPages,
          HasNext := decide (page < totalPages), HasPrevious := decide (page > 1) })

end PermissionServiceImpl

namespace AuthServiceImpl

/-- The service's `GetAllUsers`.  The `Permissions` field of each
`dto.AccountResponse` is returned next to the record. -/
def GetAllUsers (env : Env) (db : DB) (page size : Int) (search order : String)
    (roles : List String) (verified : Option Bool) :
    Except Error (List (AccountResponse × List PermissionResponse) × PageMetadata) :=
  let offset := wrapInt64 (wrapInt64 (page - 1) * size)
  match AuthRepositoryImpl.GetAccounts env db size offset search order roles verified with
  | .error _ => .error (.fiber 500 "Failed to retrieve users")
  | .ok (users, total) =>
    let responses : List (AccountResponse × List PermissionResponse) := users.map (fun u =>
      ({ ID := u.1.ID, Name := u.1.Name, Email := u.1.Email, Role := u.1.Role,
         Verified := u.1.Verified, CreatedAt := some u.1.CreatedAt },
       u.2.map (fun p =>
        { ID := p.Id, Title := p.Title, Reason := p.Reason, StartDate := p.StartDate,
          EndDate := p.EndDate, Comment := p.Comment, Status := p.Status,
          CreatedAt := p.CreatedAt, UpdatedAt := p.UpdatedAt, Account := none })))
    if size = 0 then .error (.panic "runtime error: integer divide by zero")
    else
      let totalPages := wrapInt64 (Int.tdiv (wrapInt64 (wrapInt64 (total + size) - 1)) size)
      .ok (responses,
        { Page := page, Size := size, TotalItem := total, TotalPage := totalPages,
          HasNext := decide (page < totalPages), HasPrevious := decide (page > 1) })

def Register (env : Env) (db : DB) (payload : RegisterRequest) :
    Except Error AccountResponse × DB :=
  match Validate.StructRegisterRequest payload with
  | e :: es => (.error (.fiber 400 (env.GenerateValidationErrors (e :: es))), db)
  | [] =>
    if (AuthRepositoryImpl.CheckEmailIfExist env db payload.Email).1 then
      (.error (.fiber 422 "Email already in use"), db)
    else
      match env.HashPassword payload.Password with
      | .error _ => (.error (.fiber 500 "Failed to create hash password"), db)
      | .ok hashPassword =>
        match AuthRepositoryImpl.CreateAccount env db
            { Account.zero with
              Name := payload.Name, Email := payload.Email, Password := hashPassword,
              Role := USER } with
        | (.error _, db1) => (.error (.fiber 500 "Failed to register a user account"), db1)
        | (.ok user, db1) =>
          (.ok { ID := user.ID, Name := user.Name, Email := user.Email, Role := user.Role,
                 Verified := false, CreatedAt := some user.CreatedAt }, db1)

def RegisterVerificator (env : Env) (db : DB) (payload : RegisterRequest) :
    Except Error AccountResponse × DB :=
  match Validate.StructRegisterRequest payload with
  | e :: es => (.error (.fiber 400 (env.GenerateValidationErrors (e :: es))), db)
  | [] =>
    if (AuthRepositoryImpl.CheckEmailIfExist env db payload.Email).1 then
      (.error (.fiber 409 "Email already exists"), db)
    else
      match env.HashPassword payload.Password with
      | .error _ => (.error (.fiber 500 "Failed to hash password"), db)
      | .ok hashedPassword =>
        match AuthRepositoryImpl.CreateAccount env db
            { Account.zero with
              Name := payload.Name, Email := payload.Email, Password := hashedPassword,
              Role := VERIFIER, Verified := true } with
        | (.error _, db1) => (.error (.fiber 500 "Failed to register user"), db1)
        | (.ok user, db1) =>
          (.ok { ID := user.ID, Name := user.Name, Email := user.Email, Role := user.Role,
                 Verified := user.Verified, CreatedAt := some user.CreatedAt }, db1)

end AuthServiceImpl

/-! ## The two list handlers, up to the call of the service -/

/-- `ctx.Query(key, defaultValue)`: the raw value of the parameter, or the
default when the parameter is absent or empty. -/
def Query (q : String → Option String) (key defaultValue : String) : String :=
  if (q key).getD "" = "" then defaultValue else (q key).getD ""

/-- The pattern `v, err := strconv.Atoi(s); if err != nil || v < 1 { v = d }`
that both list handlers apply to `page` and to `size`. -/
def atoiOrDefault (s : String) (d : Int) : Int :=
  match strconv.Atoi s with
  | .error _ => d
  | .ok v => if v < 1 then d else v

/-- Arguments of `AuthService.GetAllUsers`. -/
structure GetAllUsersArgs where
  page : Int
  size : Int
  search : String
  order : String
  roles : List String
  verified : Option Bool
  deriving DecidableEq, Repr

/-- Arguments of `PermissionService.GetAllPermissionRequests`. -/
structure GetAllPermissionRequestsArgs where
  page : Int
  size : Int
  status : Option String
  order : String
  deriving DecidableEq, Repr

namespace AuthControllerImpl

/-- The handler `GetAllUsers` from the query `q` and the role of the current
user down to the service call: the arguments it passes, or the error it
returns without calling. -/
def GetAllUsersArgsOf (q : String → Option String) (role : String) :
    Except Error GetAllUsersArgs :=
  let page := atoiOrDefault (Query q "page" "1") 1
  let size := atoiOrDefault (Query q "size" "10") 10
  let search := Query q "search" ""
  let order0 := (Query q "order" "desc").toLower
  let order := if order0 ≠ "asc" ∧ order0 ≠ "desc" then "asc" else order0
  if role = ADMIN then
    .ok { page := page, size := size, search := search, order := order,
          roles := [USER, VERIFIER], verified := none }
  else if role = VERIFIER then
    let verifiedStr := Query q "verified" ""
    let verified : Option Bool :=
      if verifiedStr = "true" then some true
      else if verifiedStr = "false" then some false
      else none
    .ok { page := page, size := size, search := search, order := order,
          roles := [USER], verified := verified }
  else .error (.fiber 403 "Access denied")

/-- The handler `GetAllUsers`: the list and the page metadata of the
response, or the error. -/
def GetAllUsers (env : Env) (db : DB) (q : String → Option String) (role : String) :
    Except Error (List (AccountResponse × List PermissionResponse) × PageMetadata) :=
  match GetAllUsersArgsOf q role with
  | .error e => .error e
  | .ok a => AuthServiceImpl.GetAllUsers env db a.page a.size a.search a.order a.roles a.verified

end AuthControllerImpl

namespace PermissionControllerImpl

/-- The handler `GetAllPermissionRequests` from the query `q` and the role of
the current user down to the service call. -/
def GetAllPermissionRequestsArgsOf (q : String → Option String) (role : String) :
    Except Error GetAllPermissionRequestsArgs :=
  let page := atoiOrDefault (Query q "page" "1") 1
  let size := atoiOrDefault (Query q "size" "10") 10
  let order0 := (Query q "order" "desc").toLower
  let order := if order0 ≠ "asc" ∧ order0 ≠ "desc" then "desc" else order0
  if role = VERIFIER then
    let statusStr := Query q "status" ""
    .ok { page := page, size := size, order := order,
          status := if statusStr ≠ "" then some statusStr else none }
  else if role ≠ ADMIN then .error (.fiber 403 "Access denied")
  else .ok { page := page, size := size, order := order, status := none }

/-- The handler `GetAllPermissionRequests`: the list and the page metadata of
the response, or the error. -/
def GetAllPermissionRequests (env : Env) (db : DB) (q : String → Option String)
    (role : String) : Except Error (List PermissionResponse × PageMetadata) :=
  match GetAllPermissionRequestsArgsOf q role with
  | .error e => .error e
  | .ok a => PermissionServiceImpl.GetAllPermissionRequests env db a.page a.size a.status a.order

end PermissionControllerImpl

/-! ## Credentials, role changes and creation of a request -/

namespace dto

structure LoginRequest where
  Email : String
  Password : String
  deriving DecidableEq, Repr

structure LoginResponse where
  Token : String
  deriving DecidableEq, Repr

structure UpdatePasswordRequest where
  OldPassword : String
  NewPassword : String
  deriving DecidableEq, Repr

end dto

/-- The tags `required,min=6` on a string field; the length is counted in
runes, and the first failing tag is the one reported. -/
def requiredMin (field : String) (v : String) (lo : Nat) : List FieldError :=
  if v = "" then [⟨field, "required"⟩]
  else if v.length < lo then [⟨field, "min"⟩]
  else []

namespace Validate

/-- `Validate.Struct` on a `dto.LoginRequest`. -/
def StructLoginRequest (p : LoginRequest) : List FieldError :=
  requiredString "Email" p.Email ++ requiredString "Password" p.Password

/-- `Validate.Struct` on a `dto.UpdatePasswordRequest`. -/
def StructUpdatePasswordRequest (p : UpdatePasswordRequest) : List FieldError :=
  requiredMin "OldPassword" p.OldPassword 6 ++ requiredMin "NewPassword" p.NewPassword 6

end Validate

namespace middleware

/-- The part of `middleware.Authentication` that `Login` calls:
`GenerateToken(id, email, role, name)`. -/
structure Authentication where
  GenerateToken : String → String → String → String → Except String String

/-- What `Authentication.GetCurrentUserAccount(ctx)` resolves the caller to,
as far as the gates and handlers read it. -/
structure CurrentUser where
  ID : String
  Role : String
  deriving DecidableEq, Repr

/-- What a gate does with a request: answer it with a status and an error
message, or pass it on with `ctx.Next()`. -/
inductive Outcome where
  | respond (status : Nat) (message : String)
  | next
  deriving DecidableEq, Repr

namespace AuthorizationMiddleware

def AuthorizeAdmin (user : CurrentUser) : Outcome :=
  if user.ID = "" then .respond 401 "forbidden: unauthorized request, please login"
  else if user.Role ≠ ADMIN then .respond 403 "forbidden: admin access required"
  else .next

def AuthorizeVerifier (user : CurrentUser) : Outcome :=
  if user.ID = "" then .respond 401 "forbidden: unauthorized request, please login"
  else if user.Role ≠ VERIFIER then .respond 403 "forbidden: verifier access required"
  else .next

def AuthorizeUser (user : CurrentUser) : Outcome :=
  if user.ID = "" then .respond 401 "forbidden: unauthorized request, please login"
  else if user.Role ≠ USER then .respond 403 "forbidden: user access required"
  else .next

end AuthorizationMiddleware

end middleware

open middleware

namespace AuthRepositoryImpl

/-- `Where("email = ?", email).First(&account)`. -/
def FindUserByEmail (env : Env) (db : DB) (email : String) : Except String Account :=
  match env.readErr with
  | some e => .error e
  | none =>
    match db.accounts.find? (fun a => decide (a.Email = email)) with
    | none => .error "record not found"
    | some a => .ok a

/-- `Where("id = ?", id).First(&account)`. -/
def FindUserById (env : Env) (db : DB) (id : String) : Except String Account :=
  match env.readErr with
  | some e => .error e
  | none =>
    match db.accounts.find? (fun a => decide (a.ID = id)) with
    | none => .error "record not found"
    | some a => .ok a

/-- `Model(&entity.Account{}).Where("id = ?", userID).Updates(map[string]any{"role": newRole, "verified": true})`:
one statement that writes both columns on the rows it matches, and no error
when it matches none. -/
def UpdateUserRole (env : Env) (db : DB) (userID newRole : String) : Except String Unit × DB :=
  match env.writeErr with
  | some e => (.error e, db)
  | none =>
    (.ok (), { db with accounts := db.accounts.map (fun a =>
      if a.ID = userID then { a with Role := newRole, Verified := true } else a) })

/-- `Model(&entity.Account{}).Where("id = ?", userID).Update("password", newPassword)`. -/
def UpdateUserPassword (env : Env) (db : DB) (userID newPassword : String) :
    Except String Unit × DB :=
  match env.writeErr with
  | some e => (.error e, db)
  | none =>
    (.ok (), { db with accounts := db.accounts.map (fun a =>
      if a.ID = userID then { a with Password := newPassword } else a) })

/-- `Model(&entity.Account{}).Where("id = ?", userId).Update("verified", newVerifiedStatus)`. -/
def UpdateUserVerify (env : Env) (db : DB) (userId : String) (newVerifiedStatus : Bool) :
    Except String Unit × DB :=
  match env.writeErr with
  | some e => (.error e, db)
  | none =>
    (.ok (), { db with accounts := db.accounts.map (fun a =>
      if a.ID = userId then { a with Verified := newVerifiedStatus } else a) })

end AuthRepositoryImpl

namespace AuthServiceImpl

/-- The service's `Login`.  The error of `FindUserByEmail` is dropped in the
source, so a failed second lookup leaves a nil account whose `Password` is
then read. -/
def Login (env : Env) (auth : Authentication) (db : DB) (payload : LoginRequest) :
    Except Error LoginResponse :=
  match Validate.StructLoginRequest payload with
  | e :: es => .error (.fiber 400 (env.GenerateValidationErrors (e :: es)))
  | [] =>
    if ¬ (AuthRepositoryImpl.CheckEmailIfExist env db payload.Email).1 then
      .error (.fiber 401 "Incorrect email or password")
    else
      match AuthRepositoryImpl.FindUserByEmail env db payload.Email with
      | .error _ => .error (.panic "invalid memory address or nil pointer dereference")
      | .ok user =>
        if env.ComparePassword user.Password payload.Password = false then
          .error (.fiber 401 "Incorrect email or password")
        else
          match auth.GenerateToken user.ID user.Email user.Role user.Name with
          | .error _ => .error (.fiber 500 "Failed generated token")
          | .ok token => .ok { Token := token }

def UpdatePassword (env : Env) (db : DB) (userID : String) (payload : UpdatePasswordRequest) :
    Except Error Unit × DB :=
  match Validate.StructUpdatePasswordRequest payload with
  | e :: es => (.error (.fiber 400 (env.GenerateValidationErrors (e :: es))), db)
  | [] =>
    match AuthRepositoryImpl.FindUserById env db userID with
    | .error _ => (.error (.fiber 404 "User not found"), db)
    | .ok account =>
      if env.ComparePassword account.Password payload.OldPassword = false then
        (.error (.fiber 400 "Old password is incorrect"), db)
      else
        match env.HashPassword payload.NewPassword with
        | .error _ => (.error (.fiber 500 "Failed to hash password"), db)
        | .ok hashed =>
          match AuthRepositoryImpl.UpdateUserPassword env db userID hashed with
          | (.error _, db1) => (.error (.fiber 500 "Failed to update password"), db1)
          | (.ok _, db1) => (.ok (), db1)

def UpdateUserToVerificator (env : Env) (db : DB) (userID : String) : Except Error Unit × DB :=
  match AuthRepositoryImpl.UpdateUserRole env db userID VERIFIER with
  | (.error _, db1) => (.error (.fiber 500 "Failed to update user role"), db1)
  | (.ok _, db1) => (.ok (), db1)

def UpdateVerifyUser (env : Env) (db : DB) (userId : String) : Except Error Unit × DB :=
  match AuthRepositoryImpl.FindUserById env db userId with
  | .error _ => (.error (.fiber 404 "User not found"), db)
  | .ok user =>
    let newVerifiedStatus := !user.Verified
    match AuthRepositoryImpl.UpdateUserVerify env db userId newVerifiedStatus with
    | (.error _, db1) => (.error (.fiber 500 "Failed to update verified status"), db1)
    | (.ok _, db1) => (.ok (), db1)

end AuthServiceImpl

namespace PermissionServiceImpl

def CreatePermission (env : Env) (db : DB) (userID : String)
    (payload : CreatePermissionRequest) : Except Error PermissionResponse × DB :=
  match Validate.StructCreatePermissionRequest payload with
  | e :: es => (.error (.fiber 400 (env.GenerateValidationErrors (e :: es))), db)
  | [] =>
    let entity : Permission :=
      { Permission.zero with
        Title := payload.Title, Reason := payload.Reason,
        StartDate := payload.StartDate, EndDate := payload.EndDate, AccountID := userID }
    match PermissionRepositoryImpl.Create env db entity with
    | (.error _, db1) => (.error (.fiber 500 "Failed to create permission"), db1)
    | (.ok created, db1) => (.ok (ToPermissionResponse created), db1)

end PermissionServiceImpl

/-! ## The handlers that write to the permission table -/

namespace PermissionControllerImpl

/-- The handler helper `changePermissionStatus`; `body` is what
`ctx.BodyParser` made of the request body, `none` when it failed.  The result
is the message of the response. -/
def changePermissionStatus (env : Env) (db : DB) (id : String) (body : Option ApprovalRequest)
    (status : String) : Except Error String × DB :=
  match body with
  | none => (.error (.fiber 400 "Invalid input."), db)
  | some payload =>
    match PermissionServiceImpl.ChangePermissionStatus env db id status payload with
    | (.error e, db1) => (.error e, db1)
    | (.ok _, db1) => (.ok ("Permission " ++ status ++ " successfully"), db1)

def ApprovePermission (env : Env) (db : DB) (id : String) (body : Option ApprovalRequest) :
    Except Error String × DB :=
  changePermissionStatus env db id body StatusApproved

def RejectPermission (env : Env) (db : DB) (id : String) (body : Option ApprovalRequest) :
    Except Error String × DB :=
  changePermissionStatus env db id body StatusRejected

def RevisionPermission (env : Env) (db : DB) (id : String) (body : Option ApprovalRequest) :
    Except Error String × DB :=
  changePermissionStatus env db id body StatusRevised

def CreatePermission (env : Env) (db : DB) (user : CurrentUser)
    (body : Option CreatePermissionRequest) : Except Error PermissionResponse × DB :=
  match body with
  | none => (.error (.fiber 400 "Invalid request"), db)
  | some payload => PermissionServiceImpl.CreatePermission env db user.ID payload

def UpdatePermission (env : Env) (db : DB) (user : CurrentUser) (id : String)
    (body : Option CreatePermissionRequest) : Except Error String × DB :=
  match body with
  | none => (.error (.fiber 400 "Invalid request"), db)
  | some payload =>
    match PermissionServiceImpl.UpdatePermission env db user.ID id payload with
    | (.error e, db1) => (.error e, db1)
    | (.ok _, db1) => (.ok "Permission updated successfully", db1)

def CancelPermission (env : Env) (db : DB) (user : CurrentUser) (id : String) :
    Except Error String × DB :=
  match PermissionServiceImpl.CancelPermission env db user.ID id with
  | (.error e, db1) => (.error e, db1)
  | (.ok _, db1) => (.ok "Permission cancelled successfully", db1)

def DeletePermission (env : Env) (db : DB) (user : CurrentUser) (id : String) :
    Except Error String × DB :=
  match PermissionServiceImpl.DeletePermission env db user.ID id with
  | (.error e, db1) => (.error e, db1)
  | (.ok _, db1) => (.ok "Permission deleted successfully", db1)

end PermissionControllerImpl

/-! ## Sequences of calls -/

/-- A call that reaches one of the seven handlers writing to the permission
table, with the caller the gate resolved and the parsed body. -/
inductive Call where
  | create (user : CurrentUser) (body : Option CreatePermissionRequest)
  | approve (id : String) (body : Option ApprovalRequest)
  | reject (id : String) (body : Option ApprovalRequest)
  | revise (id : String) (body : Option ApprovalRequest)
  | update (user : CurrentUser) (id : String) (body : Option CreatePermissionRequest)
  | cancel (user : CurrentUser) (id : String)
  | delete (user : CurrentUser) (id : String)

/-- The store after one call is handled with the collaborators `env`. -/
def handle (env : Env) (db : DB) : Call → DB
  | .create user body => (PermissionControllerImpl.CreatePermission env db user body).2
  | .approve id body => (PermissionControllerImpl.ApprovePermission env db id body).2
  | .reject id body => (PermissionControllerImpl.RejectPermission env db id body).2
  | .revise id body => (PermissionControllerImpl.RevisionPermission env db id body).2
  | .update user id body => (PermissionControllerImpl.UpdatePermission env db user id body).2
  | .cancel user id => (PermissionControllerImpl.CancelPermission env db user id).2
  | .delete user id => (PermissionControllerImpl.DeletePermission env db user id).2

/-- The store after a sequence of calls, each with its own collaborators
(clock, generated id, driver behaviour). -/
def run (db : DB) : List (Env × Call) → DB
  | [] => db
  | (env, c) :: rest => run (handle env db c) rest

/-- The five values of the status enumeration. -/
def statuses : List String :=
  [StatusPending, StatusApproved, StatusRejected, StatusRevised, StatusCancelled]

/-- A status that is one of the five values. -/
def validStatus (s : String) : Prop := s ∈ statuses

instance (s : String) : Decidable (validStatus s) := by
  unfold validStatus
  infer_instance

/-- Every row of `db1` comes from a row of `db` with the same id and the same
owning account id, and has one of the five statuses if that row had. -/
def rowsKept (db db1 : DB) : Prop :=
  ∀ q ∈ db1.permissions, ∃ p ∈ db.permissions,
    q.Id = p.Id ∧ q.AccountID = p.AccountID ∧ (validStatus p.Status → validStatus q.Status)

/-! ## The rule for `page` and `size` in the words of the specification -/

/-- The specification's rule for a raw `page` or `size` parameter, as it is
written: the default `d` when the parameter is absent, is not a decimal
integer or is an integer below 1, and the integer itself otherwise. -/
def specParam (raw : Option String) (d : Int) : Int :=
  match raw with
  | none => d
  | some s =>
    match strconv.decimal s with
    | none => d
    | some v => if v < 1 then d else v

/-- The same rule with one more case for the default: an integer that does
not fit a 64 bit `int`. -/
def specParamInt64 (raw : Option String) (d : Int) : Int :=
  match raw with
  | none => d
  | some s =>
    match strconv.decimal s with
    | none => d
    | some v => if v < 1 ∨ maxInt64 < v then d else v

/-! ## Sample data -/

/-- Collaborators that all succeed. -/
def sampleEnv : Env :=
  { readErr := none, writeErr := none, newId := "a9", now := 500,
    HashPassword := fun p => .ok ("hash:" ++ p),
    ComparePassword := fun h p => decide (h = "hash:" ++ p),
    GenerateValidationErrors := fun es => String.intercalate "," (es.map (fun e => e.field)) }

def sampleOwner : Account :=
  { ID := "a1", Name := "Ani", Email := "ani@example.org", Password := "hash:secret",
    Role := "user", Verified := false, CreatedAt := 10 }

def samplePending : Permission :=
  { Id := "p1", Title := "Leave", Reason := "Family", StartDate := 100, EndDate := 200,
    Comment := "", Status := "pending", CreatedAt := 20, UpdatedAt := 20,
    AccountID := "a1", Account := Account.zero }

def sampleRevised : Permission :=
  { Id := "p2", Title := "Trip", Reason := "Travel", StartDate := 300, EndDate := 400,
    Comment := "shorten it", Status := "revised", CreatedAt := 30, UpdatedAt := 35,
    AccountID := "a1", Account := Account.zero }

def sampleDB : DB :=
  { accounts := [sampleOwner], permissions := [samplePending, sampleRevised] }

/-- A store with twenty-five accounts of role user, each with one request. -/
def sampleDB25 : DB :=
  { accounts := (List.range 25).map (fun i =>
      { sampleOwner with ID := "u" ++ toString i, Email := toString i ++ "@example.org" }),
    permissions := (List.range 25).map (fun i =>
      { samplePending with Id := "q" ++ toString i, AccountID := "u" ++ toString i }) }

/-- A query string that only sets `size`, to the largest `int`. -/
def sampleQueryHugeSize : String → Option String :=
  fun k => if k = "size" then some "9223372036854775807" else none

/-- A query string whose `page` and `size` are one above the largest `int`. -/
def sampleQueryTooBig : String → Option String :=
  fun k => if k = "page" ∨ k = "size" then some "9223372036854775808" else none

/-- A query string with `page=3` and `size=10`. -/
def sampleQueryPage3 : String → Option String :=
  fun k => if k = "page" then some "3" else if k = "size" then some "10" else none

def sampleRegister : RegisterRequest :=
  { Name := "Budi", Email := "budi@example.org", Password := "secret1" }

def samplePayload : CreatePermissionRequest :=
  { Title := "Leave (edited)", Reason := "Family visit", StartDate := 110, EndDate := 210 }

/-- Collaborators whose driver refuses every write. -/
def sampleEnvWriteDown : Env :=
  { sampleEnv with writeErr := some "pq: connection refused (10.0.0.5:5432)" }

def sampleUser : CurrentUser := { ID := "a1", Role := "user" }

/-- A create, an approval, a cancel, an edit and a delete, one after another. -/
def sampleCalls : List (Env × Call) :=
  [(sampleEnv, .create sampleUser (some samplePayload)),
   (sampleEnv, .approve "p1" (some { Comment := "ok" })),
   (sampleEnv, .cancel sampleUser "p2"),
   (sampleEnv, .update sampleUser "a9" (some samplePayload)),
   (sampleEnv, .delete sampleUser "a9")]

/-- A token generator that always succeeds. -/
def sampleAuth : Authentication :=
  { GenerateToken := fun id email role name =>
      .ok (String.intercalate "|" [id, email, role, name]) }

/-- An id in uuid form that no sample account has. -/
def sampleMissingId : String := "0b0e7c52-6f0a-4c58-9a55-2f4cde5a7f10"

def sampleChangePassword : UpdatePasswordRequest :=
  { OldPassword := "guess123", NewPassword := "newsecret" }

/-- A query string with `verified=true` and `status=approved`. -/
def sampleQueryFilters : String → Option String :=
  fun k =>
    if k = "verified" then some "true" else if k = "status" then some "approved" else none

/-! ## Lemmas on the store -/

theorem find_map_keep_id (f : Permission → Permission) (id : String)
    (hf : ∀ p, (f p).Id = p.Id) (l : List Permission) :
    (l.map f).find? (fun p => decide (p.Id = id)) =
      (l.find? (fun p => decide (p.Id = id))).map f := by
  induction l with
  | nil => rfl
  | cons a t ih =>
    by_cases h : a.Id = id
    · simp [List.find?, hf, h]
    · simp [List.find?, hf, h, ih]

theorem find_some_id {l : List Permission} {id : String} {perm : Permission}
    (h : l.find? (fun p => decide (p.Id = id)) = some perm) : perm.Id = id := by
  have := List.find?_some h
  simpa using this

theorem findByID_of_find {env : Env} {db : DB} {id : String} {perm : Permission}
    (hread : env.readErr = none)
    (hex : db.permissions.find? (fun p => decide (p.Id = id)) = some perm) :
    PermissionRepositoryImpl.FindByID env db id =
      .ok (PermissionRepositoryImpl.preloadAccount db perm) := by
  simp [PermissionRepositoryImpl.FindByID, hread, hex]

/-! ## The owner's operations: update, cancel, delete -/

/-- C1: for an existing request, a payload that passes validation and a store
that answers, `UpdatePermission` succeeds exactly when the status is pending
or revised and the caller is the owner; in every other case it fails with a
403 error. -/
theorem updatePermission_ok_iff (env : Env) (db : DB) (userID id : String)
    (payload : CreatePermissionRequest) (perm : Permission)
    (hread : env.readErr = none) (hwrite : env.writeErr = none)
    (hvalid : Validate.StructCreatePermissionRequest payload = [])
    (hex : db.permissions.find? (fun p => decide (p.Id = id)) = some perm) :
    ((PermissionServiceImpl.UpdatePermission env db userID id payload).1 = .ok () ↔
      (perm.Status = "pending" ∨ perm.Status = "revised") ∧ userID = perm.AccountID) ∧
    (¬ ((perm.Status = "pending" ∨ perm.Status = "revised") ∧ userID = perm.AccountID) →
      ∃ msg, (PermissionServiceImpl.UpdatePermission env db userID id payload).1 =
        .error (.fiber 403 msg)) := by
  have hfind := findByID_of_find hread hex
  by_cases ho : perm.AccountID = userID
  · by_cases hs : perm.Status = "pending" ∨ perm.Status = "revised"
    · have hs2 : ¬ (perm.Status ≠ "pending" ∧ perm.Status ≠ "revised") := by tauto
      simp [PermissionServiceImpl.UpdatePermission, hvalid, hfind,
        PermissionRepositoryImpl.preloadAccount, PermissionRepositoryImpl.Update, hwrite,
        StatusPending, StatusRevised, ho, hs, hs2]
    · have hs2 : perm.Status ≠ "pending" ∧ perm.Status ≠ "revised" := by tauto
      simp [PermissionServiceImpl.UpdatePermission, hvalid, hfind,
        PermissionRepositoryImpl.preloadAccount,
        StatusPending, StatusRevised, ho, hs2]
  · have ho2 : ¬ userID = perm.AccountID := fun h => ho h.symm
    simp [PermissionServiceImpl.UpdatePermission, hvalid, hfind,
      PermissionRepositoryImpl.preloadAccount, ho, ho2]

theorem updatePermission_ok_iff_witness :
    ((PermissionServiceImpl.UpdatePermission sampleEnv sampleDB "a1" "p2" samplePayload).1 = .ok () ↔
      (sampleRevised.Status = "pending" ∨ sampleRevised.Status = "revised") ∧
        "a1" = sampleRevised.AccountID) ∧
    (¬ ((sampleRevised.Status = "pending" ∨ sampleRevised.Status = "revised") ∧
        "a1" = sampleRevised.AccountID) →
      ∃ msg, (PermissionServiceImpl.UpdatePermission sampleEnv sampleDB "a1" "p2" samplePayload).1 =
        .error (.fiber 403 msg)) :=
  updatePermission_ok_iff sampleEnv sampleDB "a1" "p2" samplePayload sampleRevised
    rfl rfl (by decide) (by decide)

/-- C2: for an existing request and a store that answers, `CancelPermission`
succeeds exactly when the status is pending or revised and the caller is the
owner; in every other case it fails with a 403 error and the store is the one
it was given. -/
theorem cancelPermission_ok_iff (env : Env) (db : DB) (userID id : String) (perm : Permission)
    (hread : env.readErr = none) (hwrite : env.writeErr = none)
    (hex : db.permissions.find? (fun p => decide (p.Id = id)) = some perm) :
    ((PermissionServiceImpl.CancelPermission env db userID id).1 = .ok () ↔
      (perm.Status = "pending" ∨ perm.Status = "revised") ∧ userID = perm.AccountID) ∧
    (¬ ((perm.Status = "pending" ∨ perm.Status = "revised") ∧ userID = perm.AccountID) →
      ∃ msg, PermissionServiceImpl.CancelPermission env db userID id =
        (.error (.fiber 403 msg), db)) := by
  have hfind := findByID_of_find hread hex
  by_cases ho : perm.AccountID = userID
  · by_cases hs : perm.Status = "pending" ∨ perm.Status = "revised"
    · have hs2 : ¬ (perm.Status ≠ "pending" ∧ perm.Status ≠ "revised") := by tauto
      simp [PermissionServiceImpl.CancelPermission, hfind,
        PermissionRepositoryImpl.preloadAccount, PermissionRepositoryImpl.UpdateStatus, hwrite,
        StatusPending, StatusRevised, ho, hs, hs2]
    · have hs2 : perm.Status ≠ "pending" ∧ perm.Status ≠ "revised" := by tauto
      simp [PermissionServiceImpl.CancelPermission, hfind,
        PermissionRepositoryImpl.preloadAccount,
        StatusPending, StatusRevised, ho, hs2]
  · have ho2 : ¬ userID = perm.AccountID := fun h => ho h.symm
    simp [PermissionServiceImpl.CancelPermission, hfind,
      PermissionRepositoryImpl.preloadAccount, ho, ho2]

theorem cancelPermission_ok_iff_witness :
    ((PermissionServiceImpl.CancelPermission sampleEnv sampleDB "a1" "p1").1 = .ok () ↔
      (samplePending.Status = "pending" ∨ samplePending.Status = "revised") ∧
        "a1" = samplePending.AccountID) ∧
    (¬ ((samplePending.Status = "pending" ∨ samplePending.Status = "revised") ∧
        "a1" = samplePending.AccountID) →
      ∃ msg, PermissionServiceImpl.CancelPermission sampleEnv sampleDB "a1" "p1" =
        (.error (.fiber 403 msg), sampleDB)) :=
  cancelPermission_ok_iff sampleEnv sampleDB "a1" "p1" samplePending rfl rfl (by decide)

/-- C3: for an existing request and a store that answers, `DeletePermission`
succeeds exactly when the status is pending and the caller is the owner, and
then no row with that id is left while all other rows stay; in every other
case (a revised request included) it fails with a 403 error and the store is
the one it was given. -/
theorem deletePermission_ok_iff (env : Env) (db : DB) (userID id : String) (perm : Permission)
    (hread : env.readErr = none) (hwrite : env.writeErr = none)
    (hex : db.permissions.find? (fun p => decide (p.Id = id)) = some perm) :
    ((PermissionServiceImpl.DeletePermission env db userID id).1 = .ok () ↔
      perm.Status = "pending" ∧ userID = perm.AccountID) ∧
    (perm.Status = "pending" ∧ userID = perm.AccountID →
      (PermissionServiceImpl.DeletePermission env db userID id).2.permissions =
          db.permissions.filter (fun p => decide (p.Id ≠ id)) ∧
      (PermissionServiceImpl.DeletePermission env db userID id).2.accounts = db.accounts ∧
      (PermissionServiceImpl.DeletePermission env db userID id).2.permissions.find?
          (fun p => decide (p.Id = id)) = none) ∧
    (¬ (perm.Status = "pending" ∧ userID = perm.AccountID) →
      ∃ msg, PermissionServiceImpl.DeletePermission env db userID id =
        (.error (.fiber 403 msg), db)) ∧
    (perm.Status = "revised" →
      ∃ msg, PermissionServiceImpl.DeletePermission env db userID id =
        (.error (.fiber 403 msg), db)) := by
  have hfind := findByID_of_find hread hex
  by_cases ho : perm.AccountID = userID
  · by_cases hs : perm.Status = "pending"
    · simp [PermissionServiceImpl.DeletePermission, hfind,
        PermissionRepositoryImpl.preloadAccount, PermissionRepositoryImpl.Delete, hwrite,
        StatusPending, ho, hs]
    · simp [PermissionServiceImpl.DeletePermission, hfind,
        PermissionRepositoryImpl.preloadAccount, StatusPending, ho, hs]
  · have ho2 : ¬ userID = perm.AccountID := fun h => ho h.symm
    simp [PermissionServiceImpl.DeletePermission, hfind,
      PermissionRepositoryImpl.preloadAccount, ho, ho2]

theorem deletePermission_ok_iff_witness :
    (PermissionServiceImpl.DeletePermission sampleEnv sampleDB "a1" "p1").1 = .ok () ∧
    (PermissionServiceImpl.DeletePermission sampleEnv sampleDB "a1" "p1").2.permissions =
      [sampleRevised] ∧
    (∃ msg, PermissionServiceImpl.DeletePermission sampleEnv sampleDB "a1" "p2" =
      (.error (.fiber 403 msg), sampleDB)) :=
  ⟨(deletePermission_ok_iff sampleEnv sampleDB "a1" "p1" samplePending rfl rfl
      (by decide)).1.2 (by decide),
   ((deletePermission_ok_iff sampleEnv sampleDB "a1" "p1" samplePending rfl rfl
      (by decide)).2.1 (by decide)).1.trans (by decide),
   (deletePermission_ok_iff sampleEnv sampleDB "a1" "p2" sampleRevised rfl rfl
      (by decide)).2.2.2 (by decide)⟩

/-! ## The verifier's operation: change of status -/

/-- C4: `ChangePermissionStatus` with an empty comment answers 400 for every
request id and every target status (approved, rejected and revised among
them), whatever the store holds and whether or not the driver would answer:
the outcome is fixed before any lookup or write, and the store is returned as
it was given. -/
theorem changePermissionStatus_empty_comment (env : Env) (db : DB) (id status : String) :
    PermissionServiceImpl.ChangePermissionStatus env db id status { Comment := "" } =
      (.error (.fiber 400 (env.GenerateValidationErrors [⟨"Comment", "required"⟩])), db) ∧
    (PermissionServiceImpl.ChangePermissionStatus env db id status { Comment := "" }).2.permissions.find?
        (fun p => decide (p.Id = id)) =
      db.permissions.find? (fun p => decide (p.Id = id)) := by
  simp [PermissionServiceImpl.ChangePermissionStatus, Validate.StructApprovalRequest,
    requiredString]

/-- C5: when a pending request of user A is approved with a non-empty comment
c, the approval succeeds, the stored request then has status approved and
comment c, and an `UpdatePermission` on it by A with any valid payload fails
with the 403 error for the wrong status, leaving the store alone. -/
theorem approve_then_update_forbidden (env : Env) (db : DB) (id c : String) (perm : Permission)
    (hread : env.readErr = none) (hwrite : env.writeErr = none)
    (hex : db.permissions.find? (fun p => decide (p.Id = id)) = some perm)
    (_hpending : perm.Status = "pending") (hc : c ≠ "") :
    (PermissionServiceImpl.ChangePermissionStatus env db id StatusApproved { Comment := c }).1 =
      .ok () ∧
    (PermissionServiceImpl.ChangePermissionStatus env db id StatusApproved
        { Comment := c }).2.permissions.find? (fun p => decide (p.Id = id)) =
      some { perm with Status := "approved", Comment := c, UpdatedAt := env.now } ∧
    ∀ payload : CreatePermissionRequest, Validate.StructCreatePermissionRequest payload = [] →
      PermissionServiceImpl.UpdatePermission env
          (PermissionServiceImpl.ChangePermissionStatus env db id StatusApproved { Comment := c }).2
          perm.AccountID id payload =
        (.error (.fiber 403 "Permission cannot be updated in current status"),
          (PermissionServiceImpl.ChangePermissionStatus env db id StatusApproved { Comment := c }).2) := by
  have hfind := findByID_of_find hread hex
  have hid := find_some_id hex
  have hstep : PermissionServiceImpl.ChangePermissionStatus env db id StatusApproved { Comment := c } =
      (.ok (), { db with permissions := db.permissions.map (fun p =>
        if p.Id = id then { p with Status := "approved", Comment := c, UpdatedAt := env.now }
        else p) }) := by
    simp [PermissionServiceImpl.ChangePermissionStatus, Validate.StructApprovalRequest,
      requiredString, hc, hfind, PermissionRepositoryImpl.UpdatePermissionStatus, hwrite,
      StatusApproved]
  have hafter : (db.permissions.map (fun p =>
        if p.Id = id then { p with Status := "approved", Comment := c, UpdatedAt := env.now }
        else p)).find? (fun p => decide (p.Id = id)) =
      some { perm with Status := "approved", Comment := c, UpdatedAt := env.now } := by
    rw [find_map_keep_id _ id (fun p => by by_cases h : p.Id = id <;> simp [h]), hex]
    simp [hid]
  refine ⟨by rw [hstep], by rw [hstep]; exact hafter, ?_⟩
  intro payload hvalid
  rw [hstep]
  have hfind2 := @findByID_of_find env { db with permissions := db.permissions.map (fun p =>
        if p.Id = id then { p with Status := "approved", Comment := c, UpdatedAt := env.now }
        else p) } id _ hread hafter
  simp [PermissionServiceImpl.UpdatePermission, hvalid, hfind2,
    PermissionRepositoryImpl.preloadAccount, StatusPending, StatusRevised]

theorem approve_then_update_forbidden_witness :
    (PermissionServiceImpl.ChangePermissionStatus sampleEnv sampleDB "p1" StatusApproved
      { Comment := "ok" }).1 = .ok () ∧
    (PermissionServiceImpl.ChangePermissionStatus sampleEnv sampleDB "p1" StatusApproved
        { Comment := "ok" }).2.permissions.find? (fun p => decide (p.Id = "p1")) =
      some { samplePending with Status := "approved", Comment := "ok", UpdatedAt := sampleEnv.now } ∧
    ∀ payload : CreatePermissionRequest, Validate.StructCreatePermissionRequest payload = [] →
      PermissionServiceImpl.UpdatePermission sampleEnv
          (PermissionServiceImpl.ChangePermissionStatus sampleEnv sampleDB "p1" StatusApproved
            { Comment := "ok" }).2
          samplePending.AccountID "p1" payload =
        (.error (.fiber 403 "Permission cannot be updated in current status"),
          (PermissionServiceImpl.ChangePermissionStatus sampleEnv sampleDB "p1" StatusApproved
            { Comment := "ok" }).2) :=
  approve_then_update_forbidden sampleEnv sampleDB "p1" "ok" samplePending rfl rfl
    (by decide) (by decide) (by decide)

/-- C6: when `CancelPermission` by the owner succeeds on a request whose status
is pending or revised, every row with that id gets status "cancelled" and
comment "Cancelled by user" (and a fresh update stamp) while its title,
reason, start and end date and owning account id stay; every other row and the
account table are as before. -/
theorem cancelPermission_effect (env : Env) (db : DB) (userID id : String) (perm : Permission)
    (hex : db.permissions.find? (fun p => decide (p.Id = id)) = some perm)
    (hstatus : perm.Status = "pending" ∨ perm.Status = "revised")
    (howner : userID = perm.AccountID)
    (hok : (PermissionServiceImpl.CancelPermission env db userID id).1 = .ok ()) :
    (PermissionServiceImpl.CancelPermission env db userID id).2.permissions =
      db.permissions.map (fun p =>
        if p.Id = id then
          { p with Status := "cancelled", Comment := "Cancelled by user", UpdatedAt := env.now }
        else p) ∧
    (PermissionServiceImpl.CancelPermission env db userID id).2.permissions.find?
        (fun p => decide (p.Id = id)) =
      some { Id := perm.Id, Title := perm.Title, Reason := perm.Reason,
             StartDate := perm.StartDate, EndDate := perm.EndDate,
             Comment := "Cancelled by user", Status := "cancelled",
             CreatedAt := perm.CreatedAt, UpdatedAt := env.now,
             AccountID := perm.AccountID, Account := perm.Account } ∧
    (∀ q ∈ db.permissions, q.Id ≠ id →
      q ∈ (PermissionServiceImpl.CancelPermission env db userID id).2.permissions) ∧
    (∀ q ∈ (PermissionServiceImpl.CancelPermission env db userID id).2.permissions, q.Id ≠ id →
      q ∈ db.permissions) ∧
    (PermissionServiceImpl.CancelPermission env db userID id).2.accounts = db.accounts := by
  have hid := find_some_id hex
  have hs2 : ¬ (perm.Status ≠ "pending" ∧ perm.Status ≠ "revised") := by tauto
  -- a successful call means that both statements ran
  have hread : env.readErr = none := by
    cases hr : env.readErr with
    | none => rfl
    | some e =>
      simp [PermissionServiceImpl.CancelPermission, PermissionRepositoryImpl.FindByID, hr] at hok
  have hfind := findByID_of_find hread hex
  have hwrite : env.writeErr = none := by
    cases hw : env.writeErr with
    | none => rfl
    | some e =>
      simp [PermissionServiceImpl.CancelPermission, hfind,
        PermissionRepositoryImpl.preloadAccount, PermissionRepositoryImpl.UpdateStatus, hw,
        StatusPending, StatusRevised, howner, hs2] at hok
  have hstep : PermissionServiceImpl.CancelPermission env db userID id =
      (.ok (), { db with permissions := db.permissions.map (fun p =>
        if p.Id = id then
          { p with Status := "cancelled", Comment := "Cancelled by user", UpdatedAt := env.now }
        else p) }) := by
    simp [PermissionServiceImpl.CancelPermission, hfind,
      PermissionRepositoryImpl.preloadAccount, PermissionRepositoryImpl.UpdateStatus, hwrite,
      PermissionRepositoryImpl.updatesStruct, Permission.zero,
      StatusPending, StatusRevised, StatusCancelled, howner, hs2]
  rw [hstep]
  refine ⟨rfl, ?_, ?_, ?_, rfl⟩
  · show (db.permissions.map _).find? _ = _
    rw [find_map_keep_id _ id (fun p => by by_cases h : p.Id = id <;> simp [h]), hex]
    simp [hid]
  · intro q hq hne
    show q ∈ db.permissions.map _
    exact List.mem_map.mpr ⟨q, hq, by simp [hne]⟩
  · intro q hq hne
    have hq2 : q ∈ db.permissions.map _ := hq
    obtain ⟨r, hr, hrq⟩ := List.mem_map.mp hq2
    by_cases h : r.Id = id
    · simp [h] at hrq
      exact absurd (by rw [← hrq]) hne
    · simp [h] at hrq
      exact hrq ▸ hr

theorem cancelPermission_effect_witness :
    (PermissionServiceImpl.CancelPermission sampleEnv sampleDB "a1" "p2").2.permissions =
      [samplePending,
       { sampleRevised with Status := "cancelled", Comment := "Cancelled by user",
                            UpdatedAt := 500 }] :=
  (cancelPermission_effect sampleEnv sampleDB "a1" "p2" sampleRevised (by decide) (by decide)
    (by decide) rfl).1.trans (by decide)

/-! ## Pagination -/

theorem wrapInt64_of_range {x : Int} (h1 : minInt64 ≤ x) (h2 : x ≤ maxInt64) :
    wrapInt64 x = x := by
  unfold wrapInt64
  unfold minInt64 at h1
  unfold maxInt64 at h2
  omega

theorem tdiv_add_sub_one_eq_ceil (t s : Int) (ht : 0 ≤ t) (hs : 1 ≤ s) :
    Int.tdiv (t + s - 1) s = ⌈(t : ℚ) / (s : ℚ)⌉ := by
  have hs0 : 0 < s := by omega
  rw [Int.tdiv_eq_ediv (by omega) (by omega)]
  symm
  rw [Int.ceil_eq_iff]
  have h1 : (t + s - 1) / s * s ≤ t + s - 1 := Int.ediv_mul_le _ (by omega)
  have h2 : t + s - 1 < ((t + s - 1) / s + 1) * s := Int.lt_ediv_add_one_mul_self _ hs0
  have hsq : (0 : ℚ) < (s : ℚ) := by exact_mod_cast hs0
  constructor
  · rw [lt_div_iff₀ hsq]
    have h3 : ((t + s - 1) / s - 1) * s < t := by nlinarith
    exact_mod_cast h3
  · rw [div_le_iff₀ hsq]
    have h3 : t ≤ (t + s - 1) / s * s := by nlinarith
    exact_mod_cast h3

/-- The page metadata both list services compute, when nothing overflows:
for `1 ≤ page`, `1 ≤ size` and a count `0 ≤ total` with `(page - 1) * size`
and `total + size - 1` within the 64 bit range, the offset is
`(page - 1) * size` and the page count is the ceiling of `total / size`. -/
theorem pageMetadata_in_range (page size total : Int) (hp : 1 ≤ page) (hs : 1 ≤ size)
    (ht : 0 ≤ total) (hoff : (page - 1) * size ≤ maxInt64)
    (htot : total + size - 1 ≤ maxInt64) :
    wrapInt64 (wrapInt64 (page - 1) * size) = (page - 1) * size ∧
    wrapInt64 (Int.tdiv (wrapInt64 (wrapInt64 (total + size) - 1)) size) =
      ⌈(total : ℚ) / (size : ℚ)⌉ := by
  have hmul : page - 1 ≤ (page - 1) * size := by nlinarith
  have hmul0 : 0 ≤ (page - 1) * size := by nlinarith
  have hmin : minInt64 = -9223372036854775808 := rfl
  have hmax : maxInt64 = 9223372036854775807 := rfl
  have e1 : wrapInt64 (page - 1) = page - 1 :=
    wrapInt64_of_range (by omega) (by omega)
  have e2 : wrapInt64 ((page - 1) * size) = (page - 1) * size :=
    wrapInt64_of_range (by omega) hoff
  have e3 : wrapInt64 (wrapInt64 (total + size) - 1) = total + size - 1 := by
    unfold wrapInt64
    omega
  have hq : Int.tdiv (total + size - 1) size = ⌈(total : ℚ) / (size : ℚ)⌉ :=
    tdiv_add_sub_one_eq_ceil total size ht hs
  have hq0 : 0 ≤ Int.tdiv (total + size - 1) size := by
    rw [Int.tdiv_eq_ediv (by omega) (by omega)]
    exact Int.ediv_nonneg (by omega) (by omega)
  have hq1 : Int.tdiv (total + size - 1) size ≤ total + size - 1 := by
    rw [Int.tdiv_eq_ediv (by omega) (by omega)]
    exact Int.ediv_le_self _ (by omega)
  refine ⟨by rw [e1, e2], ?_⟩
  rw [e3, wrapInt64_of_range (by omega) (by omega), hq]

theorem findAllPermissions_total_nonneg {env : Env} {db : DB} {size offset : Int}
    {status : Option String} {order : String} {perms : List Permission} {total : Int}
    (h : PermissionRepositoryImpl.FindAllPermissions env db size offset status order =
      .ok (perms, total)) : 0 ≤ total := by
  unfold PermissionRepositoryImpl.FindAllPermissions at h
  split at h
  · cases h
  · simp only [Except.ok.injEq, Prod.mk.injEq] at h
    rw [← h.2]
    exact Int.natCast_nonneg _

theorem getAccounts_total_nonneg {env : Env} {db : DB} {size offset : Int}
    {search order : String} {role : List String} {verified : Option Bool}
    {users : List (Account × List Permission)} {total : Int}
    (h : AuthRepositoryImpl.GetAccounts env db size offset search order role verified =
      .ok (users, total)) : 0 ≤ total := by
  unfold AuthRepositoryImpl.GetAccounts at h
  split at h
  · cases h
  · simp only [Except.ok.injEq, Prod.mk.injEq] at h
    rw [← h.2]
    exact Int.natCast_nonneg _

/-- When nothing overflows, `GetAllPermissionRequests` answers the metadata of
the pagination contract for the count that the repository returns at offset
`(page - 1) * size`. -/
theorem getAllPermissionRequests_meta_in_range (env : Env) (db : DB) (page size : Int)
    (status : Option String) (order : String) (perms : List Permission) (total : Int)
    (hrepo : PermissionRepositoryImpl.FindAllPermissions env db size ((page - 1) * size)
      status order = .ok (perms, total))
    (hp : 1 ≤ page) (hs : 1 ≤ size) (hoff : (page - 1) * size ≤ maxInt64)
    (htot : total + size - 1 ≤ maxInt64) :
    (PermissionServiceImpl.GetAllPermissionRequests env db page size status order).map
        (fun r => r.2) =
      .ok { Page := page, Size := size, TotalItem := total,
            TotalPage := ⌈(total : ℚ) / (size : ℚ)⌉,
            HasNext := decide (page < ⌈(total : ℚ) / (size : ℚ)⌉),
            HasPrevious := decide (page > 1) } := by
  have ht := findAllPermissions_total_nonneg hrepo
  obtain ⟨e1, e2⟩ := pageMetadata_in_range page size total hp hs ht hoff htot
  have hs0 : size ≠ 0 := by omega
  simp only [PermissionServiceImpl.GetAllPermissionRequests, e1, hrepo, e2, hs0, if_false]
  rfl

/-- When nothing overflows, `GetAllUsers` answers the metadata of the
pagination contract for the count that the repository returns at offset
`(page - 1) * size`. -/
theorem getAllUsers_meta_in_range (env : Env) (db : DB) (page size : Int)
    (search order : String) (roles : List String) (verified : Option Bool)
    (users : List (Account × List Permission)) (total : Int)
    (hrepo : AuthRepositoryImpl.GetAccounts env db size ((page - 1) * size) search order
      roles verified = .ok (users, total))
    (hp : 1 ≤ page) (hs : 1 ≤ size) (hoff : (page - 1) * size ≤ maxInt64)
    (htot : total + size - 1 ≤ maxInt64) :
    (AuthServiceImpl.GetAllUsers env db page size search order roles verified).map
        (fun r => r.2) =
      .ok { Page := page, Size := size, TotalItem := total,
            TotalPage := ⌈(total : ℚ) / (size : ℚ)⌉,
            HasNext := decide (page < ⌈(total : ℚ) / (size : ℚ)⌉),
            HasPrevious := decide (page > 1) } := by
  have ht := getAccounts_total_nonneg hrepo
  obtain ⟨e1, e2⟩ := pageMetadata_in_range page size total hp hs ht hoff htot
  have hs0 : size ≠ 0 := by omega
  simp only [AuthServiceImpl.GetAllUsers, e1, hrepo, e2, hs0, if_false]
  rfl

/-- C7 (evaluation at the failing input): with twenty-five rows in the table
and `size=9223372036854775807` in the query, both list handlers answer page
metadata with `TotalPage = 0`, although the ceiling of 25 / size is 1; with
`page=3&size=10` they answer the values of the specification's example. -/
theorem pagination_totalPage_overflow :
    (PermissionControllerImpl.GetAllPermissionRequests sampleEnv sampleDB25
        sampleQueryHugeSize "admin").map (fun r => r.2) =
      .ok { Page := 1, Size := 9223372036854775807, TotalItem := 25, TotalPage := 0,
            HasNext := false, HasPrevious := false } ∧
    (AuthControllerImpl.GetAllUsers sampleEnv sampleDB25 sampleQueryHugeSize "admin").map
        (fun r => r.2) =
      .ok { Page := 1, Size := 9223372036854775807, TotalItem := 25, TotalPage := 0,
            HasNext := false, HasPrevious := false } ∧
    ⌈(25 : ℚ) / (9223372036854775807 : ℚ)⌉ = 1 ∧
    (PermissionControllerImpl.GetAllPermissionRequests sampleEnv sampleDB25
        sampleQueryPage3 "admin").map (fun r => r.2) =
      .ok { Page := 3, Size := 10, TotalItem := 25, TotalPage := 3,
            HasNext := false, HasPrevious := true } := by
  refine ⟨rfl, rfl, ?_, rfl⟩
  rw [Int.ceil_eq_iff]
  norm_num

/-! ## The `page` and `size` parameters -/

theorem atoiOrDefault_eq (s : String) (d : Int) :
    atoiOrDefault s d =
      match strconv.decimal s with
      | none => d
      | some v => if v < 1 ∨ maxInt64 < v then d else v := by
  unfold atoiOrDefault strconv.Atoi
  cases hdec : strconv.decimal s with
  | none => rfl
  | some v =>
    by_cases hr : minInt64 ≤ v ∧ v ≤ maxInt64
    · by_cases h1 : v < 1
      · simp [hr, h1]
      · have h2 : ¬ maxInt64 < v := by omega
        simp [hr, h1, h2]
    · have : v < 1 ∨ maxInt64 < v := by
        unfold minInt64 maxInt64 at *
        omega
      simp [hr, this]

theorem atoiOrDefault_query (q : String → Option String) (key ds : String) (d : Int)
    (hd : strconv.decimal ds = some d) (hd1 : 1 ≤ d) (hd2 : d ≤ maxInt64) :
    atoiOrDefault (Query q key ds) d = specParamInt64 (q key) d := by
  rw [atoiOrDefault_eq]
  unfold Query specParamInt64
  cases hq : q key with
  | none =>
    have : ¬ (d < 1 ∨ maxInt64 < d) := by omega
    simp [hd, this]
  | some s =>
    by_cases hs : s = ""
    · have : ¬ (d < 1 ∨ maxInt64 < d) := by omega
      have he : strconv.decimal "" = none := rfl
      simp [hs, hd, this, he]
    · simp [hs]

theorem specParamInt64_ge_one (raw : Option String) (d : Int) (hd : 1 ≤ d) :
    1 ≤ specParamInt64 raw d := by
  unfold specParamInt64
  split
  · exact hd
  · split
    · exact hd
    · split <;> omega

/-- C8 (as stated, refuted): with `page` and `size` both "9223372036854775808",
a decimal integer that is not below 1, the handlers use 1 and 10 and not the
integer itself. -/
theorem pageParam_too_big_counterexample :
    strconv.decimal "9223372036854775808" = some 9223372036854775808 ∧
    specParam (sampleQueryTooBig "page") 1 = 9223372036854775808 ∧
    specParam (sampleQueryTooBig "size") 10 = 9223372036854775808 ∧
    (AuthControllerImpl.GetAllUsersArgsOf sampleQueryTooBig "admin").map
        (fun a => (a.page, a.size)) = .ok (1, 10) ∧
    (PermissionControllerImpl.GetAllPermissionRequestsArgsOf sampleQueryTooBig "admin").map
        (fun a => (a.page, a.size)) = .ok (1, 10) :=
  ⟨rfl, rfl, rfl, rfl, rfl⟩

/-- C8 (amended): in both list handlers, for every query and a caller who is
admin or verifier, the service is reached and the page and size it is called
with follow the rule: the default (1 for page, 10 for size) when the parameter
is absent or empty, is not a decimal integer, is below 1 or is above the
largest 64 bit `int`; the integer itself otherwise.  Both are at least 1. -/
theorem list_handlers_page_size (q : String → Option String) (role : String)
    (hrole : role = "admin" ∨ role = "verifier") :
    (∃ a, AuthControllerImpl.GetAllUsersArgsOf q role = .ok a ∧
      a.page = specParamInt64 (q "page") 1 ∧ a.size = specParamInt64 (q "size") 10 ∧
      1 ≤ a.page ∧ 1 ≤ a.size) ∧
    (∃ a, PermissionControllerImpl.GetAllPermissionRequestsArgsOf q role = .ok a ∧
      a.page = specParamInt64 (q "page") 1 ∧ a.size = specParamInt64 (q "size") 10 ∧
      1 ≤ a.page ∧ 1 ≤ a.size) := by
  have hpage := atoiOrDefault_query q "page" "1" 1 rfl (by decide) (by decide)
  have hsize := atoiOrDefault_query q "size" "10" 10 rfl (by decide) (by decide)
  have gp := le_of_le_of_eq (specParamInt64_ge_one (q "page") 1 (by decide)) hpage.symm
  have gs := le_of_le_of_eq (specParamInt64_ge_one (q "size") 10 (by decide)) hsize.symm
  rcases hrole with h | h
  · subst h
    exact ⟨⟨_, rfl, hpage, hsize, gp, gs⟩, ⟨_, rfl, hpage, hsize, gp, gs⟩⟩
  · subst h
    exact ⟨⟨_, rfl, hpage, hsize, gp, gs⟩, ⟨_, rfl, hpage, hsize, gp, gs⟩⟩

theorem list_handlers_page_size_witness :
    (∃ a, AuthControllerImpl.GetAllUsersArgsOf sampleQueryPage3 "verifier" = .ok a ∧
      a.page = specParamInt64 (sampleQueryPage3 "page") 1 ∧
      a.size = specParamInt64 (sampleQueryPage3 "size") 10 ∧ 1 ≤ a.page ∧ 1 ≤ a.size) ∧
    (∃ a, PermissionControllerImpl.GetAllPermissionRequestsArgsOf sampleQueryPage3 "verifier" =
        .ok a ∧
      a.page = specParamInt64 (sampleQueryPage3 "page") 1 ∧
      a.size = specParamInt64 (sampleQueryPage3 "size") 10 ∧ 1 ≤ a.page ∧ 1 ≤ a.size) :=
  list_handlers_page_size sampleQueryPage3 "verifier" (Or.inr rfl)

/-! ## Registration -/

theorem checkEmailIfExist_of_new (env : Env) (db : DB) (email : String)
    (hnew : ∀ a ∈ db.accounts, a.Email ≠ email) :
    (AuthRepositoryImpl.CheckEmailIfExist env db email).1 = false := by
  unfold AuthRepositoryImpl.CheckEmailIfExist
  cases env.readErr with
  | some e => rfl
  | none =>
    have hfind : db.accounts.find? (fun a => decide (a.Email = email)) = none := by
      rw [List.find?_eq_none]
      intro a ha
      simpa using hnew a ha
    simp [hfind]

theorem no_duplicate_of_fresh (env : Env) (db : DB) (email : String)
    (hfresh : ∀ b ∈ db.accounts, b.ID ≠ env.newId)
    (hnew : ∀ b ∈ db.accounts, b.Email ≠ email) :
    ¬ db.accounts.any (fun b => decide (b.ID = env.newId) || decide (b.Email = email)) = true := by
  rw [Bool.not_eq_true, List.any_eq_false]
  intro b hb
  simp [hfresh b hb, hnew b hb]

theorem register_run (env : Env) (db : DB) (payload : RegisterRequest) (h : String)
    (hvalid : Validate.StructRegisterRequest payload = [])
    (hnew : ∀ a ∈ db.accounts, a.Email ≠ payload.Email)
    (hh : env.HashPassword payload.Password = .ok h) (hw : env.writeErr = none)
    (hany : ¬ db.accounts.any
      (fun b => decide (b.ID = env.newId) || decide (b.Email = payload.Email)) = true) :
    AuthServiceImpl.Register env db payload =
      (.ok { ID := env.newId, Name := payload.Name, Email := payload.Email,
             Role := "user", Verified := false, CreatedAt := some env.now },
       { db with accounts := db.accounts ++
          [{ ID := env.newId, Name := payload.Name, Email := payload.Email, Password := h,
             Role := "user", Verified := false, CreatedAt := env.now }] }) := by
  have hcheck := checkEmailIfExist_of_new env db payload.Email hnew
  simp [AuthServiceImpl.Register, hvalid, hcheck, hh,
    AuthRepositoryImpl.CreateAccount, hw, Account.zero, USER, hany]

theorem registerVerificator_run (env : Env) (db : DB) (payload : RegisterRequest) (h : String)
    (hvalid : Validate.StructRegisterRequest payload = [])
    (hnew : ∀ a ∈ db.accounts, a.Email ≠ payload.Email)
    (hh : env.HashPassword payload.Password = .ok h) (hw : env.writeErr = none)
    (hany : ¬ db.accounts.any
      (fun b => decide (b.ID = env.newId) || decide (b.Email = payload.Email)) = true) :
    AuthServiceImpl.RegisterVerificator env db payload =
      (.ok { ID := env.newId, Name := payload.Name, Email := payload.Email,
             Role := "verifier", Verified := true, CreatedAt := some env.now },
       { db with accounts := db.accounts ++
          [{ ID := env.newId, Name := payload.Name, Email := payload.Email, Password := h,
             Role := "verifier", Verified := true, CreatedAt := env.now }] }) := by
  have hcheck := checkEmailIfExist_of_new env db payload.Email hnew
  simp [AuthServiceImpl.RegisterVerificator, hvalid, hcheck, hh,
    AuthRepositoryImpl.CreateAccount, hw, Account.zero, VERIFIER, hany]

/-- C9: for a registration payload that passes validation and whose email no
account has, `Register` either stores nothing and answers 500 (the hash or the
insert failed), or appends exactly one account, with the payload's name and
email, role "user" and verified false, and reports role "user"; the second is
what happens whenever hashing succeeds, the insert is accepted and the
generated id is new. -/
theorem register_stores_user (env : Env) (db : DB) (payload : RegisterRequest)
    (hvalid : Validate.StructRegisterRequest payload = [])
    (hnew : ∀ a ∈ db.accounts, a.Email ≠ payload.Email) :
    ((∃ msg, AuthServiceImpl.Register env db payload = (.error (.fiber 500 msg), db)) ∨
      (∃ acct resp, AuthServiceImpl.Register env db payload =
          (.ok resp, { db with accounts := db.accounts ++ [acct] }) ∧
        acct.Role = "user" ∧ acct.Verified = false ∧
        acct.Name = payload.Name ∧ acct.Email = payload.Email ∧
        resp.Role = "user" ∧ resp.Verified = false)) ∧
    (∀ h, env.HashPassword payload.Password = .ok h → env.writeErr = none →
      (∀ a ∈ db.accounts, a.ID ≠ env.newId) →
      ∃ acct resp, AuthServiceImpl.Register env db payload =
          (.ok resp, { db with accounts := db.accounts ++ [acct] }) ∧
        acct.Role = "user" ∧ acct.Verified = false ∧
        acct.Name = payload.Name ∧ acct.Email = payload.Email ∧ acct.Password = h ∧
        resp.Role = "user" ∧ resp.Verified = false) := by
  have hcheck := checkEmailIfExist_of_new env db payload.Email hnew
  constructor
  · cases hh : env.HashPassword payload.Password with
    | error e =>
      left
      exact ⟨"Failed to create hash password",
        by simp [AuthServiceImpl.Register, hvalid, hcheck, hh]⟩
    | ok h =>
      cases hw : env.writeErr with
      | some e =>
        left
        exact ⟨"Failed to register a user account",
          by simp [AuthServiceImpl.Register, hvalid, hcheck, hh,
            AuthRepositoryImpl.CreateAccount, hw]⟩
      | none =>
        by_cases hany : db.accounts.any
            (fun b => decide (b.ID = env.newId) || decide (b.Email = payload.Email)) = true
        · left
          exact ⟨"Failed to register a user account",
            by simp [AuthServiceImpl.Register, hvalid, hcheck, hh,
              AuthRepositoryImpl.CreateAccount, hw, Account.zero, USER, hany]⟩
        · right
          exact ⟨_, _, register_run env db payload h hvalid hnew hh hw hany,
            rfl, rfl, rfl, rfl, rfl, rfl⟩
  · intro h hh hw hfresh
    exact ⟨_, _, register_run env db payload h hvalid hnew hh hw
      (no_duplicate_of_fresh env db payload.Email hfresh hnew), rfl, rfl, rfl, rfl, rfl, rfl, rfl⟩

theorem register_stores_user_witness :
    ∃ acct resp, AuthServiceImpl.Register sampleEnv sampleDB sampleRegister =
        (.ok resp, { sampleDB with accounts := sampleDB.accounts ++ [acct] }) ∧
      acct.Role = "user" ∧ acct.Verified = false ∧
      acct.Name = sampleRegister.Name ∧ acct.Email = sampleRegister.Email ∧
      acct.Password = "hash:secret1" ∧ resp.Role = "user" ∧ resp.Verified = false :=
  (register_stores_user sampleEnv sampleDB sampleRegister (by decide) (by decide)).2
    "hash:secret1" rfl rfl (by decide)

/-- C10: for a registration payload that passes validation and whose email no
account has, `RegisterVerificator` either stores nothing and answers 500 (the
hash or the insert failed), or appends exactly one account, with the payload's
name and email, role "verifier" and verified true, and returns a summary with
that role and verified true; the second is what happens whenever hashing
succeeds, the insert is accepted and the generated id is new. -/
theorem registerVerificator_stores_verifier (env : Env) (db : DB) (payload : RegisterRequest)
    (hvalid : Validate.StructRegisterRequest payload = [])
    (hnew : ∀ a ∈ db.accounts, a.Email ≠ payload.Email) :
    ((∃ msg, AuthServiceImpl.RegisterVerificator env db payload =
        (.error (.fiber 500 msg), db)) ∨
      (∃ acct resp, AuthServiceImpl.RegisterVerificator env db payload =
          (.ok resp, { db with accounts := db.accounts ++ [acct] }) ∧
        acct.Role = "verifier" ∧ acct.Verified = true ∧
        acct.Name = payload.Name ∧ acct.Email = payload.Email ∧
        resp.Role = "verifier" ∧ resp.Verified = true ∧ resp.ID = acct.ID)) ∧
    (∀ h, env.HashPassword payload.Password = .ok h → env.writeErr = none →
      (∀ a ∈ db.accounts, a.ID ≠ env.newId) →
      ∃ acct resp, AuthServiceImpl.RegisterVerificator env db payload =
          (.ok resp, { db with accounts := db.accounts ++ [acct] }) ∧
        acct.Role = "verifier" ∧ acct.Verified = true ∧
        acct.Name = payload.Name ∧ acct.Email = payload.Email ∧ acct.Password = h ∧
        resp.Role = "verifier" ∧ resp.Verified = true ∧ resp.ID = acct.ID) := by
  have hcheck := checkEmailIfExist_of_new env db payload.Email hnew
  constructor
  · cases hh : env.HashPassword payload.Password with
    | error e =>
      left
      exact ⟨"Failed to hash password",
        by simp [AuthServiceImpl.RegisterVerificator, hvalid, hcheck, hh]⟩
    | ok h =>
      cases hw : env.writeErr with
      | some e =>
        left
        exact ⟨"Failed to register user",
          by simp [AuthServiceImpl.RegisterVerificator, hvalid, hcheck, hh,
            AuthRepositoryImpl.CreateAccount, hw]⟩
      | none =>
        by_cases hany : db.accounts.any
            (fun b => decide (b.ID = env.newId) || decide (b.Email = payload.Email)) = true
        · left
          exact ⟨"Failed to register user",
            by simp [AuthServiceImpl.RegisterVerificator, hvalid, hcheck, hh,
              AuthRepositoryImpl.CreateAccount, hw, Account.zero, VERIFIER, hany]⟩
        · right
          exact ⟨_, _, registerVerificator_run env db payload h hvalid hnew hh hw hany,
            rfl, rfl, rfl, rfl, rfl, rfl, rfl⟩
  · intro h hh hw hfresh
    exact ⟨_, _, registerVerificator_run env db payload h hvalid hnew hh hw
      (no_duplicate_of_fresh env db payload.Email hfresh hnew),
      rfl, rfl, rfl, rfl, rfl, rfl, rfl, rfl⟩

theorem registerVerificator_stores_verifier_witness :
    ∃ acct resp, AuthServiceImpl.RegisterVerificator sampleEnv sampleDB sampleRegister =
        (.ok resp, { sampleDB with accounts := sampleDB.accounts ++ [acct] }) ∧
      acct.Role = "verifier" ∧ acct.Verified = true ∧
      acct.Name = sampleRegister.Name ∧ acct.Email = sampleRegister.Email ∧
      acct.Password = "hash:secret1" ∧
      resp.Role = "verifier" ∧ resp.Verified = true ∧ resp.ID = acct.ID :=
  (registerVerificator_stores_verifier sampleEnv sampleDB sampleRegister (by decide)
    (by decide)).2 "hash:secret1" rfl rfl (by decide)

/-! ## Login -/

theorem validate_login_of_nonempty (p : LoginRequest) (h1 : p.Email ≠ "")
    (h2 : p.Password ≠ "") : Validate.StructLoginRequest p = [] := by
  simp [Validate.StructLoginRequest, requiredString, h1, h2]

/-- C11: with non-empty email and password, a login whose email no account has
and a login whose email an account has but whose password does not match the
stored hash both return the error 401 "Incorrect email or password", so the
two results are equal. -/
theorem login_same_error (env : Env) (auth : Authentication) (db : DB)
    (unknown known : LoginRequest) (acct : Account)
    (hu1 : unknown.Email ≠ "") (hu2 : unknown.Password ≠ "")
    (hk1 : known.Email ≠ "") (hk2 : known.Password ≠ "")
    (hnone : ∀ a ∈ db.accounts, a.Email ≠ unknown.Email)
    (hsome : db.accounts.find? (fun a => decide (a.Email = known.Email)) = some acct)
    (hwrong : env.ComparePassword acct.Password known.Password = false) :
    AuthServiceImpl.Login env auth db unknown =
      .error (.fiber 401 "Incorrect email or password") ∧
    AuthServiceImpl.Login env auth db known =
      .error (.fiber 401 "Incorrect email or password") ∧
    AuthServiceImpl.Login env auth db unknown = AuthServiceImpl.Login env auth db known := by
  have hvu := validate_login_of_nonempty unknown hu1 hu2
  have hvk := validate_login_of_nonempty known hk1 hk2
  have hcu := checkEmailIfExist_of_new env db unknown.Email hnone
  have h1 : AuthServiceImpl.Login env auth db unknown =
      .error (.fiber 401 "Incorrect email or password") := by
    simp [AuthServiceImpl.Login, hvu, hcu]
  have h2 : AuthServiceImpl.Login env auth db known =
      .error (.fiber 401 "Incorrect email or password") := by
    cases hr : env.readErr with
    | some e =>
      simp [AuthServiceImpl.Login, hvk, AuthRepositoryImpl.CheckEmailIfExist, hr]
    | none =>
      simp [AuthServiceImpl.Login, hvk, AuthRepositoryImpl.CheckEmailIfExist, hr, hsome,
        AuthRepositoryImpl.FindUserByEmail, hwrong]
  exact ⟨h1, h2, h1.trans h2.symm⟩

theorem login_same_error_witness :
    AuthServiceImpl.Login sampleEnv sampleAuth sampleDB
        { Email := "nobody@example.org", Password := "secret" } =
      .error (.fiber 401 "Incorrect email or password") ∧
    AuthServiceImpl.Login sampleEnv sampleAuth sampleDB
        { Email := "ani@example.org", Password := "wrong" } =
      .error (.fiber 401 "Incorrect email or password") ∧
    AuthServiceImpl.Login sampleEnv sampleAuth sampleDB
        { Email := "nobody@example.org", Password := "secret" } =
      AuthServiceImpl.Login sampleEnv sampleAuth sampleDB
        { Email := "ani@example.org", Password := "wrong" } :=
  login_same_error sampleEnv sampleAuth sampleDB
    { Email := "nobody@example.org", Password := "secret" }
    { Email := "ani@example.org", Password := "wrong" } sampleOwner
    (by decide) (by decide) (by decide) (by decide) (by decide) (by decide) (by decide)

/-! ## Verification flag and promotion -/

theorem find_map_keep_account_id (f : Account → Account) (id : String)
    (hf : ∀ a, (f a).ID = a.ID) (l : List Account) :
    (l.map f).find? (fun a => decide (a.ID = id)) =
      (l.find? (fun a => decide (a.ID = id))).map f := by
  induction l with
  | nil => rfl
  | cons a t ih =>
    by_cases h : a.ID = id
    · simp [List.find?, hf, h]
    · simp [List.find?, hf, h, ih]

theorem find_some_account_id {l : List Account} {id : String} {acct : Account}
    (h : l.find? (fun a => decide (a.ID = id)) = some acct) : acct.ID = id := by
  have := List.find?_some h
  simpa using this

theorem map_id_of_unique (l : List Account) (id : String) (acct : Account)
    (huniq : ∀ a ∈ l, a.ID = id → a = acct) :
    l.map (fun a => if a.ID = id then { a with Verified := acct.Verified } else a) = l := by
  induction l with
  | nil => rfl
  | cons a t ih =>
    have ht := ih (fun b hb => huniq b (List.mem_cons_of_mem a hb))
    by_cases h : a.ID = id
    · have ha := huniq a (List.mem_cons_self a t) h
      subst ha
      rw [List.map_cons, if_pos h, ht]
    · simp only [List.map_cons, h, if_false, ht]

/-- C12: for an existing account and a store that answers, one
`UpdateVerifyUser` sets the verified flag of the account to the negation of
what it was and changes no other field, no other account and no request; a
second call right after sets it back, so the account read then is the original
one (and the whole store is the original one when the id is unique). -/
theorem updateVerifyUser_twice (env : Env) (db : DB) (id : String) (acct : Account)
    (hread : env.readErr = none) (hwrite : env.writeErr = none)
    (hex : db.accounts.find? (fun a => decide (a.ID = id)) = some acct) :
    AuthServiceImpl.UpdateVerifyUser env db id =
      (.ok (), { db with accounts := db.accounts.map (fun a =>
        if a.ID = id then { a with Verified := !acct.Verified } else a) }) ∧
    (AuthServiceImpl.UpdateVerifyUser env db id).2.accounts.find?
        (fun a => decide (a.ID = id)) =
      some { ID := acct.ID, Name := acct.Name, Email := acct.Email, Password := acct.Password,
             Role := acct.Role, Verified := !acct.Verified, CreatedAt := acct.CreatedAt } ∧
    AuthServiceImpl.UpdateVerifyUser env (AuthServiceImpl.UpdateVerifyUser env db id).2 id =
      (.ok (), { db with accounts := db.accounts.map (fun a =>
        if a.ID = id then { a with Verified := acct.Verified } else a) }) ∧
    (AuthServiceImpl.UpdateVerifyUser env
        (AuthServiceImpl.UpdateVerifyUser env db id).2 id).2.accounts.find?
        (fun a => decide (a.ID = id)) = some acct ∧
    ((∀ a ∈ db.accounts, a.ID = id → a = acct) →
      (AuthServiceImpl.UpdateVerifyUser env
        (AuthServiceImpl.UpdateVerifyUser env db id).2 id).2 = db) := by
  have hid := find_some_account_id hex
  have hstep1 : AuthServiceImpl.UpdateVerifyUser env db id =
      (.ok (), { db with accounts := db.accounts.map (fun a =>
        if a.ID = id then { a with Verified := !acct.Verified } else a) }) := by
    simp [AuthServiceImpl.UpdateVerifyUser, AuthRepositoryImpl.FindUserById, hread, hex,
      AuthRepositoryImpl.UpdateUserVerify, hwrite]
  have hfind1 : (db.accounts.map (fun a =>
        if a.ID = id then { a with Verified := !acct.Verified } else a)).find?
        (fun a => decide (a.ID = id)) = some { acct with Verified := !acct.Verified } := by
    rw [find_map_keep_account_id _ id (fun a => by by_cases h : a.ID = id <;> simp [h]), hex]
    simp [hid]
  have hmap : (db.accounts.map (fun a =>
        if a.ID = id then { a with Verified := !acct.Verified } else a)).map (fun a =>
        if a.ID = id then { a with Verified := !(!acct.Verified) } else a) =
      db.accounts.map (fun a => if a.ID = id then { a with Verified := acct.Verified } else a) := by
    rw [List.map_map]
    apply List.map_congr_left
    intro a _
    by_cases h : a.ID = id <;> simp [h]
  have hstep2 : AuthServiceImpl.UpdateVerifyUser env
      { db with accounts := db.accounts.map (fun a =>
        if a.ID = id then { a with Verified := !acct.Verified } else a) } id =
      (.ok (), { db with accounts := db.accounts.map (fun a =>
        if a.ID = id then { a with Verified := acct.Verified } else a) }) := by
    simp only [AuthServiceImpl.UpdateVerifyUser, AuthRepositoryImpl.FindUserById, hread, hfind1,
      AuthRepositoryImpl.UpdateUserVerify, hwrite, hmap]
  have hfind2 : (db.accounts.map (fun a =>
        if a.ID = id then { a with Verified := acct.Verified } else a)).find?
        (fun a => decide (a.ID = id)) = some acct := by
    rw [find_map_keep_account_id _ id (fun a => by by_cases h : a.ID = id <;> simp [h]), hex,
      Option.map_some', if_pos hid]
  rw [hstep1]
  refine ⟨rfl, hfind1, hstep2, ?_, ?_⟩
  · rw [hstep2]
    exact hfind2
  · intro huniq
    rw [hstep2]
    show ({ db with accounts := _ } : DB) = db
    rw [map_id_of_unique db.accounts id acct huniq]

theorem updateVerifyUser_twice_witness :
    (AuthServiceImpl.UpdateVerifyUser sampleEnv sampleDB "a1").2.accounts =
      [{ sampleOwner with Verified := true }] ∧
    (AuthServiceImpl.UpdateVerifyUser sampleEnv
      (AuthServiceImpl.UpdateVerifyUser sampleEnv sampleDB "a1").2 "a1").2 = sampleDB :=
  ⟨(congrArg (fun r => r.2.accounts)
      (updateVerifyUser_twice sampleEnv sampleDB "a1" sampleOwner rfl rfl (by decide)).1).trans
      (by decide),
   (updateVerifyUser_twice sampleEnv sampleDB "a1" sampleOwner rfl rfl (by decide)).2.2.2.2
      (by decide)⟩

/-- C13: for an existing account, `UpdateUserToVerificator` succeeds whenever
the write is accepted, and a successful call is one map over the account
table that sets role "verifier" and verified true on the rows with that id:
the account read afterwards has both, with id, name, email, password and
creation time as before, whatever its role and flag were. -/
theorem updateUserToVerificator_effect (env : Env) (db : DB) (id : String) (acct : Account)
    (hex : db.accounts.find? (fun a => decide (a.ID = id)) = some acct) :
    (env.writeErr = none → (AuthServiceImpl.UpdateUserToVerificator env db id).1 = .ok ()) ∧
    ((AuthServiceImpl.UpdateUserToVerificator env db id).1 = .ok () →
      (AuthServiceImpl.UpdateUserToVerificator env db id).2 =
        { db with accounts := db.accounts.map (fun a =>
          if a.ID = id then { a with Role := "verifier", Verified := true } else a) } ∧
      (AuthServiceImpl.UpdateUserToVerificator env db id).2.accounts.find?
          (fun a => decide (a.ID = id)) =
        some { ID := acct.ID, Name := acct.Name, Email := acct.Email,
               Password := acct.Password, Role := "verifier", Verified := true,
               CreatedAt := acct.CreatedAt }) := by
  have hid := find_some_account_id hex
  cases hw : env.writeErr with
  | some e =>
    simp [AuthServiceImpl.UpdateUserToVerificator, AuthRepositoryImpl.UpdateUserRole, hw]
  | none =>
    have hstep : AuthServiceImpl.UpdateUserToVerificator env db id =
        (.ok (), { db with accounts := db.accounts.map (fun a =>
          if a.ID = id then { a with Role := "verifier", Verified := true } else a) }) := by
      simp [AuthServiceImpl.UpdateUserToVerificator, AuthRepositoryImpl.UpdateUserRole, hw,
        VERIFIER]
    rw [hstep]
    refine ⟨fun _ => rfl, fun _ => ⟨rfl, ?_⟩⟩
    show (db.accounts.map _).find? _ = _
    rw [find_map_keep_account_id _ id (fun a => by by_cases h : a.ID = id <;> simp [h]), hex]
    simp [hid]

theorem updateUserToVerificator_effect_witness :
    (AuthServiceImpl.UpdateUserToVerificator sampleEnv sampleDB "a1").1 = .ok () ∧
    (AuthServiceImpl.UpdateUserToVerificator sampleEnv sampleDB "a1").2.accounts =
      [{ sampleOwner with Role := "verifier", Verified := true }] :=
  ⟨(updateUserToVerificator_effect sampleEnv sampleDB "a1" sampleOwner (by decide)).1 rfl,
   (congrArg (fun d => d.accounts)
      ((updateUserToVerificator_effect sampleEnv sampleDB "a1" sampleOwner (by decide)).2
        rfl).1).trans (by decide)⟩

/-- The service `UpdateUserToVerificator` has no lookup: whatever the store
holds, its result is never a 404 error, and for an id that no account has it
is success with the store as given whenever the write is accepted. -/
theorem updateUserToVerificator_no_not_found (env : Env) (db : DB) (id : String) :
    (∀ msg, (AuthServiceImpl.UpdateUserToVerificator env db id).1 ≠ .error (.fiber 404 msg)) ∧
    (env.writeErr = none → (∀ a ∈ db.accounts, a.ID ≠ id) →
      AuthServiceImpl.UpdateUserToVerificator env db id = (.ok (), db)) := by
  cases hw : env.writeErr with
  | some e =>
    simp [AuthServiceImpl.UpdateUserToVerificator, AuthRepositoryImpl.UpdateUserRole, hw]
  | none =>
    refine ⟨by simp [AuthServiceImpl.UpdateUserToVerificator,
      AuthRepositoryImpl.UpdateUserRole, hw], fun _ hmiss => ?_⟩
    have hmap : db.accounts.map (fun a =>
        if a.ID = id then { a with Role := VERIFIER, Verified := true } else a) = db.accounts := by
      conv_rhs => rw [← List.map_id db.accounts]
      apply List.map_congr_left
      intro a ha
      simp [hmiss a ha]
    simp [AuthServiceImpl.UpdateUserToVerificator, AuthRepositoryImpl.UpdateUserRole, hw, hmap]

/-- C14 (evaluation at the failing input): for an id that no account has,
`UpdateUserToVerificator` returns success and leaves the store as it is, where
`UpdateVerifyUser` on the same id returns 404 "User not found". -/
theorem updateUserToVerificator_missing_id_succeeds :
    sampleDB.accounts.find? (fun a => decide (a.ID = sampleMissingId)) = none ∧
    AuthServiceImpl.UpdateUserToVerificator sampleEnv sampleDB sampleMissingId =
      (.ok (), sampleDB) ∧
    AuthServiceImpl.UpdateVerifyUser sampleEnv sampleDB sampleMissingId =
      (.error (.fiber 404 "User not found"), sampleDB) :=
  ⟨by decide, rfl, rfl⟩

/-! ## Change of the own password -/

theorem findUserById_ok {env : Env} {db : DB} {id : String} {a : Account}
    (h : AuthRepositoryImpl.FindUserById env db id = .ok a) :
    env.readErr = none ∧ db.accounts.find? (fun b => decide (b.ID = id)) = some a := by
  unfold AuthRepositoryImpl.FindUserById at h
  cases hr : env.readErr with
  | some e => simp [hr] at h
  | none =>
    cases hf : db.accounts.find? (fun b => decide (b.ID = id)) with
    | none => simp [hr, hf] at h
    | some b =>
      simp [hr, hf] at h
      exact ⟨rfl, by rw [h]⟩

/-- C15: for an existing account and a payload that passes validation whose
old password does not match the stored hash, `UpdatePassword` leaves the store
as it is, and when the lookup answers its result is the error 400 "Old
password is incorrect".  In general the store is changed by `UpdatePassword`
only when the account was found and the old password matched its hash. -/
theorem updatePassword_wrong_old (env : Env) (db : DB) (userID : String)
    (payload : UpdatePasswordRequest) (acct : Account)
    (hvalid : Validate.StructUpdatePasswordRequest payload = [])
    (hex : db.accounts.find? (fun a => decide (a.ID = userID)) = some acct)
    (hwrong : env.ComparePassword acct.Password payload.OldPassword = false) :
    (AuthServiceImpl.UpdatePassword env db userID payload).2 = db ∧
    (env.readErr = none →
      AuthServiceImpl.UpdatePassword env db userID payload =
        (.error (.fiber 400 "Old password is incorrect"), db)) ∧
    (∀ (env2 : Env) (db2 : DB) (id2 : String) (payload2 : UpdatePasswordRequest),
      (AuthServiceImpl.UpdatePassword env2 db2 id2 payload2).2 ≠ db2 →
      ∃ a, db2.accounts.find? (fun b => decide (b.ID = id2)) = some a ∧
        env2.ComparePassword a.Password payload2.OldPassword = true) := by
  refine ⟨?_, ?_, ?_⟩
  · cases hr : env.readErr with
    | some e =>
      simp [AuthServiceImpl.UpdatePassword, hvalid, AuthRepositoryImpl.FindUserById, hr]
    | none =>
      simp [AuthServiceImpl.UpdatePassword, hvalid, AuthRepositoryImpl.FindUserById, hr, hex,
        hwrong]
  · intro hr
    simp [AuthServiceImpl.UpdatePassword, hvalid, AuthRepositoryImpl.FindUserById, hr, hex,
      hwrong]
  · intro env2 db2 id2 payload2 hne
    unfold AuthServiceImpl.UpdatePassword at hne
    split at hne
    · exact absurd rfl hne
    · split at hne
      · exact absurd rfl hne
      · rename_i account hfind
        split at hne
        · exact absurd rfl hne
        · rename_i hcmp
          exact ⟨account, (findUserById_ok hfind).2, by simpa using hcmp⟩

theorem updatePassword_wrong_old_witness :
    (AuthServiceImpl.UpdatePassword sampleEnv sampleDB "a1" sampleChangePassword).2 = sampleDB ∧
    AuthServiceImpl.UpdatePassword sampleEnv sampleDB "a1" sampleChangePassword =
      (.error (.fiber 400 "Old password is incorrect"), sampleDB) :=
  ⟨(updatePassword_wrong_old sampleEnv sampleDB "a1" sampleChangePassword sampleOwner
      (by decide) (by decide) (by decide)).1,
   (updatePassword_wrong_old sampleEnv sampleDB "a1" sampleChangePassword sampleOwner
      (by decide) (by decide) (by decide)).2.1 rfl⟩

/-! ## Role scoping in the list handlers and the role gates -/

theorem query_empty_default (q : String → Option String) (key : String) :
    Query q key "" = (q key).getD "" := by
  unfold Query
  by_cases h : (q key).getD "" = "" <;> simp [h]

/-- C16: in the handler `GetAllUsers` an admin reaches the service with roles
`["user", "verifier"]` and no verified filter; a verifier reaches it with
roles `["user"]` and a verified filter that is true for the query value
"true", false for "false" and absent otherwise; for every other role the
handler returns 403 "Access denied", whatever the store and the collaborators
are, so without a call of the service. -/
theorem getAllUsers_role_scoping (q : String → Option String) (role : String) :
    (role = "admin" →
      ∃ a, AuthControllerImpl.GetAllUsersArgsOf q role = .ok a ∧
        a.roles = ["user", "verifier"] ∧ a.verified = none) ∧
    (role = "verifier" →
      ∃ a, AuthControllerImpl.GetAllUsersArgsOf q role = .ok a ∧
        a.roles = ["user"] ∧
        a.verified =
          (if q "verified" = some "true" then some true
           else if q "verified" = some "false" then some false
           else none)) ∧
    (role ≠ "admin" → role ≠ "verifier" →
      AuthControllerImpl.GetAllUsersArgsOf q role = .error (.fiber 403 "Access denied") ∧
      ∀ (env : Env) (db : DB),
        AuthControllerImpl.GetAllUsers env db q role = .error (.fiber 403 "Access denied")) := by
  refine ⟨?_, ?_, ?_⟩
  · intro h
    subst h
    exact ⟨_, rfl, rfl, rfl⟩
  · intro h
    subst h
    refine ⟨_, rfl, rfl, ?_⟩
    show (if Query q "verified" "" = "true" then some true
      else if Query q "verified" "" = "false" then some false else none) = _
    rw [query_empty_default]
    cases hq : q "verified" with
    | none => simp
    | some s => simp
  · intro h1 h2
    have e : AuthControllerImpl.GetAllUsersArgsOf q role =
        .error (.fiber 403 "Access denied") := by
      simp [AuthControllerImpl.GetAllUsersArgsOf, ADMIN, VERIFIER, h1, h2]
    refine ⟨e, fun env db => ?_⟩
    simp [AuthControllerImpl.GetAllUsers, e]

theorem getAllUsers_role_scoping_witness :
    (∃ a, AuthControllerImpl.GetAllUsersArgsOf sampleQueryFilters "verifier" = .ok a ∧
      a.roles = ["user"] ∧ a.verified = some true) ∧
    AuthControllerImpl.GetAllUsersArgsOf sampleQueryFilters "user" =
      .error (.fiber 403 "Access denied") :=
  ⟨(getAllUsers_role_scoping sampleQueryFilters "verifier").2.1 rfl,
   ((getAllUsers_role_scoping sampleQueryFilters "user").2.2 (by decide) (by decide)).1⟩

/-- C17: each of the three gates answers 401 when the caller's id is empty,
answers 403 when the id is not empty and the role is not the one the gate
requires, and passes the request on exactly when the id is not empty and the
role is the required one ("admin", "verifier", "user"). -/
theorem gates_outcome (user : CurrentUser) :
    ((user.ID = "" → AuthorizationMiddleware.AuthorizeAdmin user =
        .respond 401 "forbidden: unauthorized request, please login") ∧
     (user.ID ≠ "" → user.Role ≠ "admin" → AuthorizationMiddleware.AuthorizeAdmin user =
        .respond 403 "forbidden: admin access required") ∧
     (AuthorizationMiddleware.AuthorizeAdmin user = .next ↔
        user.ID ≠ "" ∧ user.Role = "admin")) ∧
    ((user.ID = "" → AuthorizationMiddleware.AuthorizeVerifier user =
        .respond 401 "forbidden: unauthorized request, please login") ∧
     (user.ID ≠ "" → user.Role ≠ "verifier" → AuthorizationMiddleware.AuthorizeVerifier user =
        .respond 403 "forbidden: verifier access required") ∧
     (AuthorizationMiddleware.AuthorizeVerifier user = .next ↔
        user.ID ≠ "" ∧ user.Role = "verifier")) ∧
    ((user.ID = "" → AuthorizationMiddleware.AuthorizeUser user =
        .respond 401 "forbidden: unauthorized request, please login") ∧
     (user.ID ≠ "" → user.Role ≠ "user" → AuthorizationMiddleware.AuthorizeUser user =
        .respond 403 "forbidden: user access required") ∧
     (AuthorizationMiddleware.AuthorizeUser user = .next ↔
        user.ID ≠ "" ∧ user.Role = "user")) := by
  refine ⟨⟨?_, ?_, ?_⟩, ⟨?_, ?_, ?_⟩, ⟨?_, ?_, ?_⟩⟩
  · intro h
    simp [AuthorizationMiddleware.AuthorizeAdmin, h]
  · intro h1 h2
    simp [AuthorizationMiddleware.AuthorizeAdmin, ADMIN, h1, h2]
  · by_cases h1 : user.ID = "" <;> by_cases h2 : user.Role = "admin" <;>
      simp [AuthorizationMiddleware.AuthorizeAdmin, ADMIN, h1, h2]
  · intro h
    simp [AuthorizationMiddleware.AuthorizeVerifier, h]
  · intro h1 h2
    simp [AuthorizationMiddleware.AuthorizeVerifier, VERIFIER, h1, h2]
  · by_cases h1 : user.ID = "" <;> by_cases h2 : user.Role = "verifier" <;>
      simp [AuthorizationMiddleware.AuthorizeVerifier, VERIFIER, h1, h2]
  · intro h
    simp [AuthorizationMiddleware.AuthorizeUser, h]
  · intro h1 h2
    simp [AuthorizationMiddleware.AuthorizeUser, USER, h1, h2]
  · by_cases h1 : user.ID = "" <;> by_cases h2 : user.Role = "user" <;>
      simp [AuthorizationMiddleware.AuthorizeUser, USER, h1, h2]

theorem gates_outcome_witness :
    AuthorizationMiddleware.AuthorizeAdmin { ID := "", Role := "admin" } =
      .respond 401 "forbidden: unauthorized request, please login" ∧
    AuthorizationMiddleware.AuthorizeVerifier { ID := "a1", Role := "user" } =
      .respond 403 "forbidden: verifier access required" ∧
    AuthorizationMiddleware.AuthorizeUser { ID := "a1", Role := "user" } = .next :=
  ⟨(gates_outcome { ID := "", Role := "admin" }).1.1 rfl,
   (gates_outcome { ID := "a1", Role := "user" }).2.1.2.1 (by decide) (by decide),
   (gates_outcome { ID := "a1", Role := "user" }).2.2.2.2.mpr ⟨by decide, rfl⟩⟩

/-- C18: in the handler `GetAllPermissionRequests` an admin reaches the service
with no status filter whatever the query says, and the repository then counts
every row; a verifier reaches it with the query's `status` as filter when that
is not empty and with no filter when it is absent or empty; for every other
role the handler returns 403 "Access denied", whatever the store and the
collaborators are, so without a call of the service. -/
theorem getAllPermissionRequests_role_scoping (q : String → Option String) (role : String) :
    (role = "admin" →
      ∃ a, PermissionControllerImpl.GetAllPermissionRequestsArgsOf q role = .ok a ∧
        a.status = none) ∧
    (role = "verifier" →
      ∃ a, PermissionControllerImpl.GetAllPermissionRequestsArgsOf q role = .ok a ∧
        a.status = (if (q "status").getD "" ≠ "" then q "status" else none)) ∧
    (role ≠ "admin" → role ≠ "verifier" →
      PermissionControllerImpl.GetAllPermissionRequestsArgsOf q role =
        .error (.fiber 403 "Access denied") ∧
      ∀ (env : Env) (db : DB),
        PermissionControllerImpl.GetAllPermissionRequests env db q role =
          .error (.fiber 403 "Access denied")) ∧
    (∀ (env : Env) (db : DB) (size offset : Int) (order : String), env.readErr = none →
      ∃ rows, PermissionRepositoryImpl.FindAllPermissions env db size offset none order =
        .ok (rows, (db.permissions.length : Int))) := by
  refine ⟨?_, ?_, ?_, ?_⟩
  · intro h
    subst h
    exact ⟨_, rfl, rfl⟩
  · intro h
    subst h
    refine ⟨_, rfl, ?_⟩
    show (if Query q "status" "" ≠ "" then some (Query q "status" "") else none) = _
    rw [query_empty_default]
    cases hq : q "status" with
    | none => simp
    | some s => simp
  · intro h1 h2
    have e : PermissionControllerImpl.GetAllPermissionRequestsArgsOf q role =
        .error (.fiber 403 "Access denied") := by
      simp [PermissionControllerImpl.GetAllPermissionRequestsArgsOf, ADMIN, VERIFIER, h1, h2]
    refine ⟨e, fun env db => ?_⟩
    simp [PermissionControllerImpl.GetAllPermissionRequests, e]
  · intro env db size offset order hr
    simp [PermissionRepositoryImpl.FindAllPermissions, hr]

theorem getAllPermissionRequests_role_scoping_witness :
    (∃ a, PermissionControllerImpl.GetAllPermissionRequestsArgsOf sampleQueryFilters "admin" =
        .ok a ∧ a.status = none) ∧
    (∃ a, PermissionControllerImpl.GetAllPermissionRequestsArgsOf sampleQueryFilters "verifier" =
        .ok a ∧ a.status = some "approved") ∧
    PermissionControllerImpl.GetAllPermissionRequestsArgsOf sampleQueryFilters "user" =
      .error (.fiber 403 "Access denied") :=
  ⟨(getAllPermissionRequests_role_scoping sampleQueryFilters "admin").1 rfl,
   (getAllPermissionRequests_role_scoping sampleQueryFilters "verifier").2.1 rfl,
   ((getAllPermissionRequests_role_scoping sampleQueryFilters "user").2.2.1
      (by decide) (by decide)).1⟩

/-! ## Creation of a request -/

theorem no_permission_of_fresh (env : Env) (db : DB)
    (hany : ¬ db.permissions.any (fun q => decide (q.Id = env.newId)) = true) :
    db.permissions.find? (fun p => decide (p.Id = env.newId)) = none := by
  rw [List.find?_eq_none]
  intro p hp hp2
  exact hany (List.any_eq_true.mpr ⟨p, hp, hp2⟩)

/-- C19: for a payload with all four fields present, a successful
`CreatePermission` appends one row with status "pending", the caller's id as
owning account id and the payload's title, reason and dates, and returns
those values.  When the store answers, the generated id is new and the caller
has an account, the call succeeds and the response carries that account's id,
name, email and verified flag. -/
theorem createPermission_result (env : Env) (db : DB) (userID : String)
    (payload : CreatePermissionRequest)
    (hvalid : Validate.StructCreatePermissionRequest payload = []) :
    (∀ resp db1, PermissionServiceImpl.CreatePermission env db userID payload = (.ok resp, db1) →
      resp.Status = "pending" ∧ resp.Title = payload.Title ∧ resp.Reason = payload.Reason ∧
      resp.StartDate = payload.StartDate ∧ resp.EndDate = payload.EndDate ∧
      ∃ row, db1 = { db with permissions := db.permissions ++ [row] } ∧
        row.Id = resp.ID ∧ row.Status = "pending" ∧ row.AccountID = userID ∧
        row.Title = payload.Title ∧ row.Reason = payload.Reason ∧
        row.StartDate = payload.StartDate ∧ row.EndDate = payload.EndDate) ∧
    (∀ owner, env.readErr = none → env.writeErr = none →
      (∀ p ∈ db.permissions, p.Id ≠ env.newId) →
      db.accounts.find? (fun a => decide (a.ID = userID)) = some owner →
      owner.ID = userID ∧
      PermissionServiceImpl.CreatePermission env db userID payload =
        (.ok { ID := env.newId, Title := payload.Title, Reason := payload.Reason,
               StartDate := payload.StartDate, EndDate := payload.EndDate, Comment := "",
               Status := "pending", CreatedAt := env.now, UpdatedAt := env.now,
               Account := some { ID := owner.ID, Name := owner.Name, Email := owner.Email,
                                 Role := "", Verified := owner.Verified, CreatedAt := none } },
         { db with permissions := db.permissions ++
            [{ Id := env.newId, Title := payload.Title, Reason := payload.Reason,
               StartDate := payload.StartDate, EndDate := payload.EndDate, Comment := "",
               Status := "pending", CreatedAt := env.now, UpdatedAt := env.now,
               AccountID := userID, Account := Account.zero }] })) := by
  constructor
  · intro resp db1 h
    cases hw : env.writeErr with
    | some e =>
      simp [PermissionServiceImpl.CreatePermission, hvalid, PermissionRepositoryImpl.Create,
        hw] at h
    | none =>
      by_cases hany : db.permissions.any (fun q => decide (q.Id = env.newId)) = true
      · simp [PermissionServiceImpl.CreatePermission, hvalid, PermissionRepositoryImpl.Create,
          hw, Permission.zero, hany] at h
      · have hnone := no_permission_of_fresh env db hany
        cases hr : env.readErr with
        | some e =>
          simp [PermissionServiceImpl.CreatePermission, hvalid,
            PermissionRepositoryImpl.Create, hw, Permission.zero, hany,
            PermissionRepositoryImpl.FindByID, hr] at h
        | none =>
          simp [PermissionServiceImpl.CreatePermission, hvalid,
            PermissionRepositoryImpl.Create, hw, Permission.zero, hany,
            PermissionRepositoryImpl.FindByID, hr, List.find?_append, hnone,
            PermissionRepositoryImpl.preloadAccount, ToPermissionResponse] at h
          obtain ⟨h1, h2⟩ := h
          subst h1
          subst h2
          simp
  · intro owner hr hw hfresh howner
    have hany : ¬ db.permissions.any (fun q => decide (q.Id = env.newId)) = true := by
      rw [Bool.not_eq_true, List.any_eq_false]
      intro p hp
      simpa using hfresh p hp
    have hnone := no_permission_of_fresh env db hany
    refine ⟨find_some_account_id howner, ?_⟩
    simp [PermissionServiceImpl.CreatePermission, hvalid, PermissionRepositoryImpl.Create,
      hw, Permission.zero, hany, PermissionRepositoryImpl.FindByID, hr, List.find?_append,
      hnone, PermissionRepositoryImpl.preloadAccount, howner, ToPermissionResponse]

theorem createPermission_result_witness :
    sampleOwner.ID = "a1" ∧
    PermissionServiceImpl.CreatePermission sampleEnv sampleDB "a1" samplePayload =
      (.ok { ID := "a9", Title := "Leave (edited)", Reason := "Family visit",
             StartDate := 110, EndDate := 210, Comment := "",
             Status := "pending", CreatedAt := 500, UpdatedAt := 500,
             Account := some { ID := "a1", Name := "Ani", Email := "ani@example.org",
                               Role := "", Verified := false, CreatedAt := none } },
       { sampleDB with permissions := sampleDB.permissions ++
          [{ Id := "a9", Title := "Leave (edited)", Reason := "Family visit",
             StartDate := 110, EndDate := 210, Comment := "",
             Status := "pending", CreatedAt := 500, UpdatedAt := 500,
             AccountID := "a1", Account := Account.zero }] }) :=
  (createPermission_result sampleEnv sampleDB "a1" samplePayload (by decide)).2
    sampleOwner rfl rfl (by decide) (by decide)

/-! ## Registration with an email that is taken -/

/-- C20: for a registration payload that passes validation and whose email an
account already has, neither `Register` nor `RegisterVerificator` ever
succeeds or changes the store, whatever the collaborators do; when the lookup
answers, `Register` fails with 422 "Email already in use" and
`RegisterVerificator` with 409 "Email already exists". -/
theorem register_duplicate_email (env : Env) (db : DB) (payload : RegisterRequest)
    (existing : Account)
    (hvalid : Validate.StructRegisterRequest payload = [])
    (hex : db.accounts.find? (fun a => decide (a.Email = payload.Email)) = some existing) :
    (AuthServiceImpl.Register env db payload).2 = db ∧
    (AuthServiceImpl.RegisterVerificator env db payload).2 = db ∧
    (∀ r, (AuthServiceImpl.Register env db payload).1 ≠ .ok r) ∧
    (∀ r, (AuthServiceImpl.RegisterVerificator env db payload).1 ≠ .ok r) ∧
    (env.readErr = none →
      AuthServiceImpl.Register env db payload =
        (.error (.fiber 422 "Email already in use"), db) ∧
      AuthServiceImpl.RegisterVerificator env db payload =
        (.error (.fiber 409 "Email already exists"), db)) := by
  have hmem : existing ∈ db.accounts := List.mem_of_find?_eq_some hex
  have hmail : existing.Email = payload.Email := by
    have := List.find?_some hex
    simpa using this
  have hany : db.accounts.any
      (fun b => decide (b.ID = env.newId) || decide (b.Email = payload.Email)) = true := by
    rw [List.any_eq_true]
    exact ⟨existing, hmem, by simp [hmail]⟩
  cases hr : env.readErr with
  | none =>
    have e1 : AuthServiceImpl.Register env db payload =
        (.error (.fiber 422 "Email already in use"), db) := by
      simp [AuthServiceImpl.Register, hvalid, AuthRepositoryImpl.CheckEmailIfExist, hr, hex]
    have e2 : AuthServiceImpl.RegisterVerificator env db payload =
        (.error (.fiber 409 "Email already exists"), db) := by
      simp [AuthServiceImpl.RegisterVerificator, hvalid, AuthRepositoryImpl.CheckEmailIfExist,
        hr, hex]
    rw [e1, e2]
    refine ⟨rfl, rfl, ?_, ?_, ?_⟩
    · intro r h
      cases h
    · intro r h
      cases h
    · intro _
      exact ⟨rfl, rfl⟩
  | some e =>
    have e1 : ∃ msg, AuthServiceImpl.Register env db payload = (.error (.fiber 500 msg), db) := by
      cases hh : env.HashPassword payload.Password with
      | error x =>
        exact ⟨"Failed to create hash password", by
          simp [AuthServiceImpl.Register, hvalid, AuthRepositoryImpl.CheckEmailIfExist, hr, hh]⟩
      | ok x =>
        cases hw : env.writeErr with
        | some y =>
          exact ⟨"Failed to register a user account", by
            simp [AuthServiceImpl.Register, hvalid, AuthRepositoryImpl.CheckEmailIfExist, hr,
              hh, AuthRepositoryImpl.CreateAccount, hw]⟩
        | none =>
          exact ⟨"Failed to register a user account", by
            simp [AuthServiceImpl.Register, hvalid, AuthRepositoryImpl.CheckEmailIfExist, hr,
              hh, AuthRepositoryImpl.CreateAccount, hw, Account.zero, USER, hany]⟩
    have e2 : ∃ msg, AuthServiceImpl.RegisterVerificator env db payload =
        (.error (.fiber 500 msg), db) := by
      cases hh : env.HashPassword payload.Password with
      | error x =>
        exact ⟨"Failed to hash password", by
          simp [AuthServiceImpl.RegisterVerificator, hvalid,
            AuthRepositoryImpl.CheckEmailIfExist, hr, hh]⟩
      | ok x =>
        cases hw : env.writeErr with
        | some y =>
          exact ⟨"Failed to register user", by
            simp [AuthServiceImpl.RegisterVerificator, hvalid,
              AuthRepositoryImpl.CheckEmailIfExist, hr, hh, AuthRepositoryImpl.CreateAccount,
              hw]⟩
        | none =>
          exact ⟨"Failed to register user", by
            simp [AuthServiceImpl.RegisterVerificator, hvalid,
              AuthRepositoryImpl.CheckEmailIfExist, hr, hh, AuthRepositoryImpl.CreateAccount,
              hw, Account.zero, VERIFIER, hany]⟩
    obtain ⟨m1, e1⟩ := e1
    obtain ⟨m2, e2⟩ := e2
    rw [e1, e2]
    refine ⟨rfl, rfl, ?_, ?_, ?_⟩
    · intro r h
      cases h
    · intro r h
      cases h
    · intro h
      cases h

theorem register_duplicate_email_witness :
    AuthServiceImpl.Register sampleEnv sampleDB
        { Name := "Second Ani", Email := "ani@example.org", Password := "secret2" } =
      (.error (.fiber 422 "Email already in use"), sampleDB) ∧
    AuthServiceImpl.RegisterVerificator sampleEnv sampleDB
        { Name := "Second Ani", Email := "ani@example.org", Password := "secret2" } =
      (.error (.fiber 409 "Email already exists"), sampleDB) :=
  (register_duplicate_email sampleEnv sampleDB
    { Name := "Second Ani", Email := "ani@example.org", Password := "secret2" } sampleOwner
    (by decide) (by decide)).2.2.2.2 rfl

/-! ## A write that the driver refuses -/

/-- When the lookup answers, all guards pass and the driver refuses the write
with the error `e`, the three owner operations return `e` itself, where
`ChangePermissionStatus` returns its own 500 error. -/
theorem owner_write_error_is_raw (env : Env) (db : DB) (userID id e : String)
    (payload : CreatePermissionRequest) (perm : Permission)
    (hread : env.readErr = none) (hwrite : env.writeErr = some e)
    (hvalid : Validate.StructCreatePermissionRequest payload = [])
    (hex : db.permissions.find? (fun p => decide (p.Id = id)) = some perm)
    (howner : perm.AccountID = userID) :
    (perm.Status = "pending" ∨ perm.Status = "revised" →
      PermissionServiceImpl.UpdatePermission env db userID id payload = (.error (.raw e), db) ∧
      PermissionServiceImpl.CancelPermission env db userID id = (.error (.raw e), db)) ∧
    (perm.Status = "pending" →
      PermissionServiceImpl.DeletePermission env db userID id = (.error (.raw e), db)) := by
  have hfind := findByID_of_find hread hex
  constructor
  · intro hs
    have hs2 : ¬ (perm.Status ≠ "pending" ∧ perm.Status ≠ "revised") := by tauto
    constructor
    · simp [PermissionServiceImpl.UpdatePermission, hvalid, hfind,
        PermissionRepositoryImpl.preloadAccount, PermissionRepositoryImpl.Update, hwrite,
        StatusPending, StatusRevised, howner, hs2]
    · simp [PermissionServiceImpl.CancelPermission, hfind,
        PermissionRepositoryImpl.preloadAccount, PermissionRepositoryImpl.UpdateStatus, hwrite,
        StatusPending, StatusRevised, howner, hs2]
  · intro hs
    simp [PermissionServiceImpl.DeletePermission, hfind,
      PermissionRepositoryImpl.preloadAccount, PermissionRepositoryImpl.Delete, hwrite,
      StatusPending, howner, hs]

/-- C22 (evaluation at the failing input): with a driver that refuses the
write with "pq: connection refused (10.0.0.5:5432)", `UpdatePermission`,
`CancelPermission` and `DeletePermission` called by the owner on a request
that passes the guards return that error as it is, not a 500 error with a
text of their own, while `ChangePermissionStatus` returns 500 "Failed to
update permission status". -/
theorem owner_write_error_passed_through :
    PermissionServiceImpl.UpdatePermission sampleEnvWriteDown sampleDB "a1" "p2" samplePayload =
      (.error (.raw "pq: connection refused (10.0.0.5:5432)"), sampleDB) ∧
    PermissionServiceImpl.CancelPermission sampleEnvWriteDown sampleDB "a1" "p2" =
      (.error (.raw "pq: connection refused (10.0.0.5:5432)"), sampleDB) ∧
    PermissionServiceImpl.DeletePermission sampleEnvWriteDown sampleDB "a1" "p1" =
      (.error (.raw "pq: connection refused (10.0.0.5:5432)"), sampleDB) ∧
    PermissionServiceImpl.ChangePermissionStatus sampleEnvWriteDown sampleDB "p1" "approved"
        { Comment := "ok" } =
      (.error (.fiber 500 "Failed to update permission status"), sampleDB) :=
  ⟨rfl, rfl, rfl, rfl⟩

/-! ## Change of status without guards -/

/-- C24: for an existing request, whatever its status and owner, and a store
that answers, `ChangePermissionStatus` with a non-empty comment succeeds for
every target status (approved, rejected and revised among them) and
overwrites status and comment of the rows with that id; the operation takes no
caller and reads nothing of the request it finds. -/
theorem changePermissionStatus_no_guard (env : Env) (db : DB) (id status c : String)
    (perm : Permission)
    (hread : env.readErr = none) (hwrite : env.writeErr = none)
    (hex : db.permissions.find? (fun p => decide (p.Id = id)) = some perm)
    (hc : c ≠ "") :
    PermissionServiceImpl.ChangePermissionStatus env db id status { Comment := c } =
      (.ok (), { db with permissions := db.permissions.map (fun p =>
        if p.Id = id then { p with Status := status, Comment := c, UpdatedAt := env.now }
        else p) }) ∧
    (PermissionServiceImpl.ChangePermissionStatus env db id status
        { Comment := c }).2.permissions.find? (fun p => decide (p.Id = id)) =
      some { Id := perm.Id, Title := perm.Title, Reason := perm.Reason,
             StartDate := perm.StartDate, EndDate := perm.EndDate, Comment := c,
             Status := status, CreatedAt := perm.CreatedAt, UpdatedAt := env.now,
             AccountID := perm.AccountID, Account := perm.Account } := by
  have hfind := findByID_of_find hread hex
  have hid := find_some_id hex
  have hstep : PermissionServiceImpl.ChangePermissionStatus env db id status { Comment := c } =
      (.ok (), { db with permissions := db.permissions.map (fun p =>
        if p.Id = id then { p with Status := status, Comment := c, UpdatedAt := env.now }
        else p) }) := by
    simp [PermissionServiceImpl.ChangePermissionStatus, Validate.StructApprovalRequest,
      requiredString, hc, hfind, PermissionRepositoryImpl.UpdatePermissionStatus, hwrite]
  rw [hstep]
  refine ⟨rfl, ?_⟩
  show (db.permissions.map _).find? _ = _
  rw [find_map_keep_id _ id (fun p => by by_cases h : p.Id = id <;> simp [h]), hex,
    Option.map_some', if_pos hid]

theorem changePermissionStatus_no_guard_witness :
    (PermissionServiceImpl.ChangePermissionStatus sampleEnv
      (PermissionServiceImpl.CancelPermission sampleEnv sampleDB "a1" "p2").2 "p2" "approved"
      { Comment := "after all" }).2.permissions.find? (fun p => decide (p.Id = "p2")) =
    some { sampleRevised with Status := "approved", Comment := "after all", UpdatedAt := 500 } :=
  (changePermissionStatus_no_guard sampleEnv
    (PermissionServiceImpl.CancelPermission sampleEnv sampleDB "a1" "p2").2 "p2" "approved"
    "after all"
    { sampleRevised with Status := "cancelled", Comment := "Cancelled by user", UpdatedAt := 500 }
    rfl rfl (by decide) (by decide)).2

/-! ## Order of the guards -/

theorem findByID_of_none {env : Env} {db : DB} {id : String}
    (h : db.permissions.find? (fun p => decide (p.Id = id)) = none) :
    ∃ e, PermissionRepositoryImpl.FindByID env db id = .error e := by
  unfold PermissionRepositoryImpl.FindByID
  cases env.readErr with
  | some e => exact ⟨e, rfl⟩
  | none => exact ⟨"record not found", by simp [h]⟩

theorem findByID_ok {env : Env} {db : DB} {id : String} {p : Permission}
    (h : PermissionRepositoryImpl.FindByID env db id = .ok p) :
    ∃ row, db.permissions.find? (fun q => decide (q.Id = id)) = some row ∧
      p = PermissionRepositoryImpl.preloadAccount db row := by
  unfold PermissionRepositoryImpl.FindByID at h
  cases hr : env.readErr with
  | some e => simp [hr] at h
  | none =>
    cases hf : db.permissions.find? (fun q => decide (q.Id = id)) with
    | none => simp [hr, hf] at h
    | some row =>
      simp [hr, hf] at h
      exact ⟨row, rfl, h.symm⟩

/-- C25: in `UpdatePermission` (with a valid payload), `CancelPermission` and
`DeletePermission` the guards come in the order existence, ownership, status:
an id that no request has gives 404 "Permission not found" whoever calls; an
existing request of another account gives the not-owner 403 error whatever its
status; and the wrong-status 403 error is only returned when the request
exists and the caller owns it. -/
theorem owner_guards_order (env : Env) (db : DB) (userID id : String)
    (payload : CreatePermissionRequest)
    (hvalid : Validate.StructCreatePermissionRequest payload = []) :
    (db.permissions.find? (fun p => decide (p.Id = id)) = none →
      PermissionServiceImpl.UpdatePermission env db userID id payload =
        (.error (.fiber 404 "Permission not found"), db) ∧
      PermissionServiceImpl.CancelPermission env db userID id =
        (.error (.fiber 404 "Permission not found"), db) ∧
      PermissionServiceImpl.DeletePermission env db userID id =
        (.error (.fiber 404 "Permission not found"), db)) ∧
    (∀ perm, env.readErr = none →
      db.permissions.find? (fun p => decide (p.Id = id)) = some perm →
      perm.AccountID ≠ userID →
      PermissionServiceImpl.UpdatePermission env db userID id payload =
        (.error (.fiber 403 "You can only update your own permission"), db) ∧
      PermissionServiceImpl.CancelPermission env db userID id =
        (.error (.fiber 403 "You can only cancel your own permission"), db) ∧
      PermissionServiceImpl.DeletePermission env db userID id =
        (.error (.fiber 403 "You can only delete your own permission"), db)) ∧
    ((PermissionServiceImpl.UpdatePermission env db userID id payload).1 =
        .error (.fiber 403 "Permission cannot be updated in current status") ∨
      (PermissionServiceImpl.CancelPermission env db userID id).1 =
        .error (.fiber 403 "Permission can`t be cancelled") ∨
      (PermissionServiceImpl.DeletePermission env db userID id).1 =
        .error (.fiber 403 "Only pending permission can be deleted") →
      ∃ perm, db.permissions.find? (fun p => decide (p.Id = id)) = some perm ∧
        perm.AccountID = userID) := by
  refine ⟨?_, ?_, ?_⟩
  · intro hnone
    obtain ⟨e, he⟩ := @findByID_of_none env db id hnone
    simp [PermissionServiceImpl.UpdatePermission, PermissionServiceImpl.CancelPermission,
      PermissionServiceImpl.DeletePermission, hvalid, he]
  · intro perm hread hex hne
    have hfind := findByID_of_find hread hex
    simp [PermissionServiceImpl.UpdatePermission, PermissionServiceImpl.CancelPermission,
      PermissionServiceImpl.DeletePermission, hvalid, hfind,
      PermissionRepositoryImpl.preloadAccount, hne]
  · intro h
    cases hf : PermissionRepositoryImpl.FindByID env db id with
    | error e =>
      simp [PermissionServiceImpl.UpdatePermission, PermissionServiceImpl.CancelPermission,
        PermissionServiceImpl.DeletePermission, hvalid, hf] at h
    | ok p =>
      obtain ⟨row, hrow, hp⟩ := findByID_ok hf
      refine ⟨row, hrow, ?_⟩
      by_contra hne
      have hne2 : p.AccountID ≠ userID := by
        rw [hp]
        exact hne
      simp [PermissionServiceImpl.UpdatePermission, PermissionServiceImpl.CancelPermission,
        PermissionServiceImpl.DeletePermission, hvalid, hf, hne2] at h

theorem owner_guards_order_witness :
    (PermissionServiceImpl.UpdatePermission sampleEnv sampleDB "a1" sampleMissingId
        samplePayload =
      (.error (.fiber 404 "Permission not found"), sampleDB) ∧
     PermissionServiceImpl.CancelPermission sampleEnv sampleDB "a1" sampleMissingId =
      (.error (.fiber 404 "Permission not found"), sampleDB) ∧
     PermissionServiceImpl.DeletePermission sampleEnv sampleDB "a1" sampleMissingId =
      (.error (.fiber 404 "Permission not found"), sampleDB)) ∧
    (PermissionServiceImpl.UpdatePermission sampleEnv sampleDB "a7" "p1" samplePayload =
      (.error (.fiber 403 "You can only update your own permission"), sampleDB) ∧
     PermissionServiceImpl.CancelPermission sampleEnv sampleDB "a7" "p1" =
      (.error (.fiber 403 "You can only cancel your own permission"), sampleDB) ∧
     PermissionServiceImpl.DeletePermission sampleEnv sampleDB "a7" "p1" =
      (.error (.fiber 403 "You can only delete your own permission"), sampleDB)) :=
  ⟨(owner_guards_order sampleEnv sampleDB "a1" sampleMissingId samplePayload (by decide)).1
      (by decide),
   (owner_guards_order sampleEnv sampleDB "a7" "p1" samplePayload (by decide)).2.1
      samplePending rfl (by decide) (by decide)⟩

/-! ## What an edit changes -/

theorem valid_create_fields (payload : CreatePermissionRequest)
    (hvalid : Validate.StructCreatePermissionRequest payload = []) :
    payload.Title ≠ "" ∧ payload.Reason ≠ "" ∧ payload.StartDate ≠ 0 ∧ payload.EndDate ≠ 0 := by
  unfold Validate.StructCreatePermissionRequest requiredString requiredTime at hvalid
  by_cases h1 : payload.Title = ""
  · simp [h1] at hvalid
  by_cases h2 : payload.Reason = ""
  · simp [h2] at hvalid
  by_cases h3 : payload.StartDate = 0
  · simp [h3] at hvalid
  by_cases h4 : payload.EndDate = 0
  · simp [h4] at hvalid
  exact ⟨h1, h2, h3, h4⟩

/-- C23 (as stated, refuted): the owner's successful edit of the revised
request "p2" leaves its status revised but moves its update stamp from 35 to
the clock's 500, so title, reason and the two dates are not all it changes. -/
theorem updatePermission_stamp_counterexample :
    sampleDB.permissions.find? (fun p => decide (p.Id = "p2")) = some sampleRevised ∧
    sampleRevised.UpdatedAt = 35 ∧
    (PermissionServiceImpl.UpdatePermission sampleEnv sampleDB "a1" "p2" samplePayload).1 =
      .ok () ∧
    (PermissionServiceImpl.UpdatePermission sampleEnv sampleDB "a1" "p2"
        samplePayload).2.permissions.find? (fun p => decide (p.Id = "p2")) =
      some { sampleRevised with
             Title := "Leave (edited)", Reason := "Family visit", StartDate := 110,
             EndDate := 210, UpdatedAt := 500 } ∧
    ((PermissionServiceImpl.UpdatePermission sampleEnv sampleDB "a1" "p2"
        samplePayload).2.permissions.find? (fun p => decide (p.Id = "p2"))).map
        (fun p => p.UpdatedAt) ≠ some sampleRevised.UpdatedAt :=
  ⟨by decide, rfl, rfl, by decide, by decide⟩

/-- C23 (amended): when `UpdatePermission` by the owner succeeds on a request
whose status is pending or revised, with a valid payload, the rows with that
id get the payload's title, reason, start and end date and a fresh update
stamp and nothing else: status (a revised request stays revised), comment,
owning account id, id and creation time are as before, and so are all other
rows and the account table. -/
theorem updatePermission_effect (env : Env) (db : DB) (userID id : String)
    (payload : CreatePermissionRequest) (perm : Permission)
    (hvalid : Validate.StructCreatePermissionRequest payload = [])
    (hex : db.permissions.find? (fun p => decide (p.Id = id)) = some perm)
    (hstatus : perm.Status = "pending" ∨ perm.Status = "revised")
    (howner : userID = perm.AccountID)
    (hok : (PermissionServiceImpl.UpdatePermission env db userID id payload).1 = .ok ()) :
    (PermissionServiceImpl.UpdatePermission env db userID id payload).2 =
      { db with permissions := db.permissions.map (fun p =>
        if p.Id = id then
          { p with Title := payload.Title, Reason := payload.Reason,
                   StartDate := payload.StartDate, EndDate := payload.EndDate,
                   UpdatedAt := env.now }
        else p) } ∧
    (PermissionServiceImpl.UpdatePermission env db userID id payload).2.permissions.find?
        (fun p => decide (p.Id = id)) =
      some { Id := perm.Id, Title := payload.Title, Reason := payload.Reason,
             StartDate := payload.StartDate, EndDate := payload.EndDate,
             Comment := perm.Comment, Status := perm.Status,
             CreatedAt := perm.CreatedAt, UpdatedAt := env.now,
             AccountID := perm.AccountID, Account := perm.Account } := by
  have hid := find_some_id hex
  obtain ⟨t1, t2, t3, t4⟩ := valid_create_fields payload hvalid
  have hs2 : ¬ (perm.Status ≠ "pending" ∧ perm.Status ≠ "revised") := by tauto
  have hread : env.readErr = none := by
    cases hr : env.readErr with
    | none => rfl
    | some e =>
      simp [PermissionServiceImpl.UpdatePermission, hvalid, PermissionRepositoryImpl.FindByID,
        hr] at hok
  have hfind := findByID_of_find hread hex
  have hwrite : env.writeErr = none := by
    cases hw : env.writeErr with
    | none => rfl
    | some e =>
      simp [PermissionServiceImpl.UpdatePermission, hvalid, hfind,
        PermissionRepositoryImpl.preloadAccount, PermissionRepositoryImpl.Update, hw,
        StatusPending, StatusRevised, howner, hs2] at hok
  have hstep : PermissionServiceImpl.UpdatePermission env db userID id payload =
      (.ok (), { db with permissions := db.permissions.map (fun p =>
        if p.Id = id then
          { p with Title := payload.Title, Reason := payload.Reason,
                   StartDate := payload.StartDate, EndDate := payload.EndDate,
                   UpdatedAt := env.now }
        else p) }) := by
    simp [PermissionServiceImpl.UpdatePermission, hvalid, hfind,
      PermissionRepositoryImpl.preloadAccount, PermissionRepositoryImpl.Update, hwrite,
      PermissionRepositoryImpl.updatesStruct, Permission.zero,
      StatusPending, StatusRevised, howner, hs2, t1, t2, t3, t4]
  rw [hstep]
  refine ⟨rfl, ?_⟩
  show (db.permissions.map _).find? _ = _
  rw [find_map_keep_id _ id (fun p => by by_cases h : p.Id = id <;> simp [h]), hex,
    Option.map_some', if_pos hid]

theorem updatePermission_effect_witness :
    (PermissionServiceImpl.UpdatePermission sampleEnv sampleDB "a1" "p2"
        samplePayload).2.permissions =
      [samplePending,
       { sampleRevised with
         Title := "Leave (edited)", Reason := "Family visit", StartDate := 110,
         EndDate := 210, UpdatedAt := 500 }] :=
  (congrArg (fun d => d.permissions)
    (updatePermission_effect sampleEnv sampleDB "a1" "p2" samplePayload sampleRevised
      (by decide) (by decide) (by decide) (by decide) rfl).1).trans (by decide)

/-! ## Status and owner along a sequence of calls -/

theorem rowsKept_refl (db : DB) : rowsKept db db :=
  fun q hq => ⟨q, hq, rfl, rfl, fun h => h⟩

theorem rowsKept_map (db : DB) (f : Permission → Permission)
    (hf : ∀ p, (f p).Id = p.Id ∧ (f p).AccountID = p.AccountID ∧
      (validStatus p.Status → validStatus (f p).Status)) :
    rowsKept db { db with permissions := db.permissions.map f } := by
  intro q hq
  obtain ⟨p, hp, rfl⟩ := List.mem_map.mp hq
  exact ⟨p, hp, hf p⟩

theorem rowsKept_updatePermissionStatus (env : Env) (db : DB) (id status comment : String)
    (hs : validStatus status) :
    rowsKept db (PermissionRepositoryImpl.UpdatePermissionStatus env db id status comment).2 := by
  unfold PermissionRepositoryImpl.UpdatePermissionStatus
  cases env.writeErr with
  | some e => exact rowsKept_refl db
  | none =>
    apply rowsKept_map
    intro p
    by_cases h : p.Id = id
    · simp [h, hs]
    · simp [h]

theorem rowsKept_update (env : Env) (db : DB) (id : String) (e : Permission)
    (h1 : e.Id = "") (h2 : e.AccountID = "") (h3 : e.Status = "") :
    rowsKept db (PermissionRepositoryImpl.Update env db id e).2 := by
  unfold PermissionRepositoryImpl.Update
  cases env.writeErr with
  | some err => exact rowsKept_refl db
  | none =>
    apply rowsKept_map
    intro p
    by_cases h : p.Id = id
    · simp [h, PermissionRepositoryImpl.updatesStruct, h1, h2, h3]
    · simp [h]

theorem rowsKept_updateStatus (env : Env) (db : DB) (id status comment : String)
    (hs : validStatus status) :
    rowsKept db (PermissionRepositoryImpl.UpdateStatus env db id status comment).2 := by
  unfold PermissionRepositoryImpl.UpdateStatus
  cases env.writeErr with
  | some err => exact rowsKept_refl db
  | none =>
    apply rowsKept_map
    intro p
    by_cases h : p.Id = id
    · by_cases hz : status = ""
      · simp [h, PermissionRepositoryImpl.updatesStruct, Permission.zero, hz]
      · simp [h, PermissionRepositoryImpl.updatesStruct, Permission.zero, hz, hs]
    · simp [h]

theorem rowsKept_delete (env : Env) (db : DB) (id : String) :
    rowsKept db (PermissionRepositoryImpl.Delete env db id).2 := by
  unfold PermissionRepositoryImpl.Delete
  cases env.writeErr with
  | some err => exact rowsKept_refl db
  | none =>
    intro q hq
    exact ⟨q, (List.mem_filter.mp hq).1, rfl, rfl, fun h => h⟩

theorem rowsKept_changePermissionStatus (env : Env) (db : DB) (id status : String)
    (payload : ApprovalRequest) (hs : validStatus status) :
    rowsKept db (PermissionServiceImpl.ChangePermissionStatus env db id status payload).2 := by
  have h := rowsKept_updatePermissionStatus env db id status payload.Comment hs
  unfold PermissionServiceImpl.ChangePermissionStatus
  repeat' split
  all_goals first
    | exact rowsKept_refl db
    | (rename_i heq; rw [heq] at h; exact h)

theorem rowsKept_updatePermission (env : Env) (db : DB) (userID id : String)
    (payload : CreatePermissionRequest) :
    rowsKept db (PermissionServiceImpl.UpdatePermission env db userID id payload).2 := by
  have h := rowsKept_update env db id
    { Permission.zero with
      Title := payload.Title, Reason := payload.Reason,
      StartDate := payload.StartDate, EndDate := payload.EndDate } rfl rfl rfl
  unfold PermissionServiceImpl.UpdatePermission
  repeat' split
  all_goals first
    | exact rowsKept_refl db
    | (dsimp only at h ⊢
       split <;> (rename_i heq; rw [heq] at h; exact h))

theorem rowsKept_cancelPermission (env : Env) (db : DB) (userID id : String) :
    rowsKept db (PermissionServiceImpl.CancelPermission env db userID id).2 := by
  have h := rowsKept_updateStatus env db id StatusCancelled "Cancelled by user" (by decide)
  unfold PermissionServiceImpl.CancelPermission
  repeat' split
  all_goals first
    | exact rowsKept_refl db
    | (rename_i heq; rw [heq] at h; exact h)

theorem rowsKept_deletePermission (env : Env) (db : DB) (userID id : String) :
    rowsKept db (PermissionServiceImpl.DeletePermission env db userID id).2 := by
  have h := rowsKept_delete env db id
  unfold PermissionServiceImpl.DeletePermission
  repeat' split
  all_goals first
    | exact rowsKept_refl db
    | (rename_i heq; rw [heq] at h; exact h)

theorem createPermission_rows (env : Env) (db : DB) (userID : String)
    (payload : CreatePermissionRequest) :
    ∀ q ∈ (PermissionServiceImpl.CreatePermission env db userID payload).2.permissions,
      q ∈ db.permissions ∨ (q.Id = env.newId ∧ q.AccountID = userID ∧ q.Status = "pending") := by
  intro q hq
  unfold PermissionServiceImpl.CreatePermission at hq
  split at hq
  · exact Or.inl hq
  · cases hw : env.writeErr with
    | some e =>
      simp [PermissionRepositoryImpl.Create, hw] at hq
      exact Or.inl hq
    | none =>
      by_cases hany : db.permissions.any (fun r => decide (r.Id = env.newId)) = true
      · simp [PermissionRepositoryImpl.Create, hw, Permission.zero, hany] at hq
        exact Or.inl hq
      · cases hf : PermissionRepositoryImpl.FindByID env
            { db with permissions := db.permissions ++
              [{ Id := env.newId, Title := payload.Title, Reason := payload.Reason,
                 StartDate := payload.StartDate, EndDate := payload.EndDate, Comment := "",
                 Status := "pending", CreatedAt := env.now, UpdatedAt := env.now,
                 AccountID := userID, Account := Account.zero }] } env.newId with
        | error e =>
          simp [PermissionRepositoryImpl.Create, hw, Permission.zero, hany, hf] at hq
          rcases hq with hq | hq
          · exact Or.inl hq
          · right
            subst hq
            exact ⟨rfl, rfl, rfl⟩
        | ok r =>
          simp [PermissionRepositoryImpl.Create, hw, Permission.zero, hany, hf] at hq
          rcases hq with hq | hq
          · exact Or.inl hq
          · right
            subst hq
            exact ⟨rfl, rfl, rfl⟩

theorem rowsKept_changeStatusHandler (env : Env) (db : DB) (id : String)
    (body : Option ApprovalRequest) (status : String) (hs : validStatus status) :
    rowsKept db (PermissionControllerImpl.changePermissionStatus env db id body status).2 := by
  unfold PermissionControllerImpl.changePermissionStatus
  cases body with
  | none => exact rowsKept_refl db
  | some payload =>
    have h := rowsKept_changePermissionStatus env db id status payload hs
    dsimp only
    split <;> (rename_i heq; rw [heq] at h; exact h)

theorem rowsKept_updateHandler (env : Env) (db : DB) (user : CurrentUser) (id : String)
    (body : Option CreatePermissionRequest) :
    rowsKept db (PermissionControllerImpl.UpdatePermission env db user id body).2 := by
  unfold PermissionControllerImpl.UpdatePermission
  cases body with
  | none => exact rowsKept_refl db
  | some payload =>
    have h := rowsKept_updatePermission env db user.ID id payload
    dsimp only
    split <;> (rename_i heq; rw [heq] at h; exact h)

theorem rowsKept_cancelHandler (env : Env) (db : DB) (user : CurrentUser) (id : String) :
    rowsKept db (PermissionControllerImpl.CancelPermission env db user id).2 := by
  unfold PermissionControllerImpl.CancelPermission
  have h := rowsKept_cancelPermission env db user.ID id
  split <;> (rename_i heq; rw [heq] at h; exact h)

theorem rowsKept_deleteHandler (env : Env) (db : DB) (user : CurrentUser) (id : String) :
    rowsKept db (PermissionControllerImpl.DeletePermission env db user id).2 := by
  unfold PermissionControllerImpl.DeletePermission
  have h := rowsKept_deletePermission env db user.ID id
  split <;> (rename_i heq; rw [heq] at h; exact h)

/-- One call either keeps a row (same id, same owning account id, a status
among the five if it had one) or, when it is a create, adds a row with the
generated id, the caller as owner and status pending. -/
theorem handle_rows (env : Env) (db : DB) (c : Call) :
    ∀ q ∈ (handle env db c).permissions,
      (∃ p ∈ db.permissions, q.Id = p.Id ∧ q.AccountID = p.AccountID ∧
        (validStatus p.Status → validStatus q.Status)) ∨
      (∃ user body, c = .create user body ∧ q.Id = env.newId ∧ q.AccountID = user.ID ∧
        q.Status = "pending") := by
  intro q hq
  cases c with
  | create user body =>
    cases body with
    | none => exact Or.inl ⟨q, hq, rfl, rfl, fun h => h⟩
    | some payload =>
      rcases createPermission_rows env db user.ID payload q hq with h | h
      · exact Or.inl ⟨q, h, rfl, rfl, fun h => h⟩
      · exact Or.inr ⟨user, some payload, rfl, h⟩
  | approve id body =>
    exact Or.inl (rowsKept_changeStatusHandler env db id body StatusApproved (by decide) q hq)
  | reject id body =>
    exact Or.inl (rowsKept_changeStatusHandler env db id body StatusRejected (by decide) q hq)
  | revise id body =>
    exact Or.inl (rowsKept_changeStatusHandler env db id body StatusRevised (by decide) q hq)
  | update user id body => exact Or.inl (rowsKept_updateHandler env db user id body q hq)
  | cancel user id => exact Or.inl (rowsKept_cancelHandler env db user id q hq)
  | delete user id => exact Or.inl (rowsKept_deleteHandler env db user id q hq)

/-- C21: from a store in which every request has one of the five statuses,
after any sequence of create, approve, reject, revise, update, cancel and
delete calls (each with its own clock, generated id and driver behaviour),
every request in the store has one of the five statuses, and it either has
the id and owning account id of a request of the initial store or was added
by a create call of the sequence, with that call's generated id and caller as
owning account id. -/
theorem status_and_owner_invariant (db : DB) (calls : List (Env × Call))
    (hinit : ∀ p ∈ db.permissions, validStatus p.Status) :
    ∀ q ∈ (run db calls).permissions,
      validStatus q.Status ∧
      ((∃ p ∈ db.permissions, p.Id = q.Id ∧ p.AccountID = q.AccountID) ∨
       (∃ env user body, (env, Call.create user body) ∈ calls ∧
          q.Id = env.newId ∧ q.AccountID = user.ID)) := by
  induction calls generalizing db with
  | nil =>
    intro q hq
    exact ⟨hinit q hq, Or.inl ⟨q, hq, rfl, rfl⟩⟩
  | cons head rest ih =>
    obtain ⟨env, c⟩ := head
    have hstep := handle_rows env db c
    have hvalid : ∀ p ∈ (handle env db c).permissions, validStatus p.Status := by
      intro p hp
      rcases hstep p hp with ⟨p0, hp0, _, _, hs⟩ | ⟨_, _, _, _, _, hs⟩
      · exact hs (hinit p0 hp0)
      · rw [hs]
        decide
    intro q hq
    obtain ⟨hq1, hq2⟩ := ih (handle env db c) hvalid q hq
    refine ⟨hq1, ?_⟩
    rcases hq2 with ⟨p1, hp1, hid, hacc⟩ | ⟨env2, user, body, hmem, hid, hacc⟩
    · rcases hstep p1 hp1 with ⟨p0, hp0, hid0, hacc0, _⟩ | ⟨user, body, hc, hid0, hacc0, _⟩
      · exact Or.inl ⟨p0, hp0, by rw [← hid0, hid], by rw [← hacc0, hacc]⟩
      · refine Or.inr ⟨env, user, body, ?_, by rw [← hid, hid0], by rw [← hacc, hacc0]⟩
        rw [hc]
        exact List.mem_cons_self _ _
    · exact Or.inr ⟨env2, user, body, List.mem_cons_of_mem _ hmem, hid, hacc⟩

theorem status_and_owner_invariant_witness :
    (run sampleDB sampleCalls).permissions.map (fun p => (p.Id, p.Status, p.AccountID)) =
      [("p1", "approved", "a1"), ("p2", "cancelled", "a1")] ∧
    ∀ q ∈ (run sampleDB sampleCalls).permissions,
      validStatus q.Status ∧
      ((∃ p ∈ sampleDB.permissions, p.Id = q.Id ∧ p.AccountID = q.AccountID) ∨
       (∃ env user body, (env, Call.create user body) ∈ sampleCalls ∧
          q.Id = env.newId ∧ q.AccountID = user.ID)) :=
  ⟨by decide, status_and_owner_invariant sampleDB sampleCalls (by decide)⟩

end Sesasi
